import Mathlib

/-!
Verification of the scrape-orchestration engine of the job-saver browser
extension (sources: `src/pages/content/src/linkedin-scraper.ts` and
`src/chrome-extension/src/background/index.ts`).

Strings are modelled as `List Char` (`Str`).  Timestamps are modelled as
integer milliseconds since the Unix epoch, in a fixed-offset (UTC) clock, as
in the ECMAScript date specification.  All definitions are shallow embeddings
of the corresponding TypeScript functions; the DOM, which the scraper only
reads, is modelled as explicit structures of the text values the source reads
out of it.
-/

set_option autoImplicit false

abbrev Str := List Char

/-- Whitespace as matched by the JavaScript regular-expression class `\s`
(restricted to the control characters and space, which are the ones the
scraped text can contain): space, tab, line feed, carriage return, vertical
tab and form feed. -/
def isWsChar (c : Char) : Bool :=
  c = ' ' || c = '\t' || c = '\n' || c = '\r' || c = '\x0b' || c = '\x0c'

/-- Model of JavaScript `String.prototype.trim`: drop leading and trailing
whitespace. -/
def trimWs (l : Str) : Str :=
  ((l.dropWhile isWsChar).reverse.dropWhile isWsChar).reverse

/-- Model of JavaScript `.replace(/\s+/g, ' ')`: every maximal run of
whitespace characters is replaced by a single space. -/
def collapseWs : Str → Str
  | [] => []
  | [c] => if isWsChar c then [' '] else [c]
  | c :: d :: rest =>
    if isWsChar c then
      if isWsChar d then collapseWs (d :: rest)
      else ' ' :: collapseWs (d :: rest)
    else c :: collapseWs (d :: rest)

/-- Doubling of internal double quotes, `field.replace(/"/g, '""')` in the
source. -/
def doubleQuotes : Str → Str
  | [] => []
  | c :: rest => if c = '"' then '"' :: '"' :: doubleQuotes rest else c :: doubleQuotes rest

/-- `escapeCsvField` (background script, lines 192-205): falsy (empty) input
serializes as the empty string; otherwise the field is trimmed, internal
whitespace runs are collapsed to single spaces, and the cleaned field is
wrapped in double quotes with internal quotes doubled whenever it contains a
comma, a double quote, a line feed or a carriage return. -/
def escapeCsvField (field : Str) : Str :=
  if field = [] then []
  else
    let cleanField := collapseWs (trimWs field)
    if cleanField.contains ',' || cleanField.contains '"' ||
        cleanField.contains '\n' || cleanField.contains '\r' then
      '"' :: doubleQuotes cleanField ++ ['"']
    else cleanField

/-- `escapeCsvField` on a possibly-missing value: the source's
`typeof field !== 'string'` guard maps any non-string input to the empty
string. -/
def escapeCsvFieldOpt : Option Str → Str
  | none => []
  | some f => escapeCsvField f

/-- Undoing of quote doubling, for the RFC 4180 reading of a quoted field. -/
def unescapeQuotes : Str → Str
  | [] => []
  | '"' :: '"' :: rest => '"' :: unescapeQuotes rest
  | c :: rest => c :: unescapeQuotes rest

/-- RFC 4180 reading of one serialized field: a field wrapped in double
quotes denotes its interior with doubled quotes undone; anything else denotes
itself. -/
def parseCsvField (s : Str) : Str :=
  match s with
  | '"' :: rest =>
    if rest ≠ [] ∧ rest.getLast? = some '"' then unescapeQuotes rest.dropLast else s
  | _ => s

theorem unescapeQuotes_doubleQuotes (l : Str) : unescapeQuotes (doubleQuotes l) = l := by
  induction l with
  | nil => rfl
  | cons c rest ih =>
    by_cases hc : c = '"'
    · subst hc
      simp only [doubleQuotes, if_pos rfl, unescapeQuotes, ih]
    · rw [doubleQuotes, if_neg hc]
      rw [show unescapeQuotes (c :: doubleQuotes rest) = c :: unescapeQuotes (doubleQuotes rest) by
        cases h : doubleQuotes rest with
        | nil => simp [unescapeQuotes]
        | cons d tail =>
          by_cases hd : d = '"'
          · subst hd; simp [unescapeQuotes, hc]
          · simp [unescapeQuotes, hc, hd]]
      rw [ih]

theorem mem_collapseWs (l : Str) (c : Char) (h : c ∈ collapseWs l) :
    c = ' ' ∨ (c ∈ l ∧ isWsChar c = false) := by
  induction l using collapseWs.induct with
  | case1 => simp [collapseWs] at h
  | case2 d hw =>
    rw [collapseWs, if_pos hw] at h
    exact Or.inl (List.mem_singleton.mp h)
  | case3 d hw =>
    rw [collapseWs, if_neg hw] at h
    rw [List.mem_singleton.mp h]
    exact Or.inr ⟨List.mem_singleton.mpr rfl, by simpa using hw⟩
  | case4 d e rest hd he ih =>
    rw [collapseWs, if_pos hd, if_pos he] at h
    rcases ih h with h' | ⟨hmem, hws⟩
    · exact Or.inl h'
    · exact Or.inr ⟨List.mem_cons_of_mem _ hmem, hws⟩
  | case5 d e rest hd he ih =>
    rw [collapseWs, if_pos hd, if_neg he] at h
    rcases List.mem_cons.mp h with h' | h'
    · exact Or.inl h'
    · rcases ih h' with h'' | ⟨hmem, hws⟩
      · exact Or.inl h''
      · exact Or.inr ⟨List.mem_cons_of_mem _ hmem, hws⟩
  | case6 d e rest hd ih =>
    rw [collapseWs, if_neg hd] at h
    rcases List.mem_cons.mp h with h' | h'
    · subst h'
      exact Or.inr ⟨List.mem_cons_self _ _, by simpa using hd⟩
    · rcases ih h' with h'' | ⟨hmem, hws⟩
      · exact Or.inl h''
      · exact Or.inr ⟨List.mem_cons_of_mem _ hmem, hws⟩

theorem newline_not_mem_collapseWs (l : Str) : '\n' ∉ collapseWs l := by
  intro h
  rcases mem_collapseWs l _ h with h' | ⟨_, hws⟩
  · exact absurd h' (by decide)
  · exact absurd hws (by decide)

theorem cr_not_mem_collapseWs (l : Str) : '\r' ∉ collapseWs l := by
  intro h
  rcases mem_collapseWs l _ h with h' | ⟨_, hws⟩
  · exact absurd h' (by decide)
  · exact absurd hws (by decide)

theorem mem_doubleQuotes (l : Str) (c : Char) (h : c ∈ doubleQuotes l) : c = '"' ∨ c ∈ l := by
  induction l with
  | nil => simp [doubleQuotes] at h
  | cons d rest ih =>
    by_cases hd : d = '"'
    · subst hd
      rw [doubleQuotes, if_pos rfl] at h
      rcases List.mem_cons.mp h with h' | h'
      · exact Or.inl h'
      · rcases List.mem_cons.mp h' with h'' | h''
        · exact Or.inl h''
        · rcases ih h'' with h3 | h3
          · exact Or.inl h3
          · exact Or.inr (List.mem_cons_of_mem _ h3)
    · rw [doubleQuotes, if_neg hd] at h
      rcases List.mem_cons.mp h with h' | h'
      · exact Or.inr (h' ▸ List.mem_cons_self _ _)
      · rcases ih h' with h'' | h''
        · exact Or.inl h''
        · exact Or.inr (List.mem_cons_of_mem _ h'')

theorem parseCsvField_not_quote (s : Str) (h : s.head? ≠ some '"') : parseCsvField s = s := by
  cases s with
  | nil => rfl
  | cons c rest =>
    have hc : c ≠ '"' := by
      intro he
      exact h (by rw [he]; rfl)
    simp [parseCsvField, hc]

theorem parseCsvField_quoted (inner : Str) :
    parseCsvField ('"' :: inner ++ ['"']) = unescapeQuotes inner := by
  have hne : inner ++ ['"'] ≠ [] := by simp
  have hlast : (inner ++ ['"']).getLast? = some '"' := List.getLast?_concat inner
  have hdrop : (inner ++ ['"']).dropLast = inner := by
    simp
  simp only [parseCsvField, List.cons_append]
  rw [if_pos ⟨hne, hlast⟩, hdrop]

theorem contains_char_iff (l : Str) (c : Char) : l.contains c = true ↔ c ∈ l :=
  List.elem_iff

theorem escapeCsvField_quoting_cond (f : Str) :
    ((collapseWs (trimWs f)).contains ',' || (collapseWs (trimWs f)).contains '"' ||
      (collapseWs (trimWs f)).contains '\n' || (collapseWs (trimWs f)).contains '\r') = true ↔
    (',' ∈ collapseWs (trimWs f) ∨ '"' ∈ collapseWs (trimWs f)) := by
  simp only [Bool.or_eq_true, contains_char_iff]
  constructor
  · rintro (((h | h) | h) | h)
    · exact Or.inl h
    · exact Or.inr h
    · exact absurd h (newline_not_mem_collapseWs _)
    · exact absurd h (cr_not_mem_collapseWs _)
  · rintro (h | h)
    · exact Or.inl (Or.inl (Or.inl h))
    · exact Or.inl (Or.inl (Or.inr h))

theorem escapeCsvField_quoted_eq (f : Str) (hf : f ≠ [])
    (hc : ',' ∈ collapseWs (trimWs f) ∨ '"' ∈ collapseWs (trimWs f)) :
    escapeCsvField f = '"' :: doubleQuotes (collapseWs (trimWs f)) ++ ['"'] := by
  simp only [escapeCsvField, if_neg hf]
  rw [if_pos ((escapeCsvField_quoting_cond f).mpr hc)]

theorem escapeCsvField_unquoted_eq (f : Str) (hf : f ≠ [])
    (hc : ¬(',' ∈ collapseWs (trimWs f) ∨ '"' ∈ collapseWs (trimWs f))) :
    escapeCsvField f = collapseWs (trimWs f) := by
  simp only [escapeCsvField, if_neg hf]
  rw [if_neg (fun h => hc ((escapeCsvField_quoting_cond f).mp h))]

theorem escapeCsvField_cases (f : Str) :
    escapeCsvField f = collapseWs (trimWs f) ∨
      escapeCsvField f = '"' :: doubleQuotes (collapseWs (trimWs f)) ++ ['"'] := by
  by_cases hf : f = []
  · subst hf
    exact Or.inl rfl
  · by_cases hc : (',' ∈ collapseWs (trimWs f) ∨ '"' ∈ collapseWs (trimWs f))
    · exact Or.inr (escapeCsvField_quoted_eq f hf hc)
    · exact Or.inl (escapeCsvField_unquoted_eq f hf hc)

theorem escapeCsvField_no_newline (f : Str) (c : Char) (h : c ∈ escapeCsvField f) :
    c ≠ '\n' ∧ c ≠ '\r' := by
  have hmem : c = '"' ∨ c ∈ collapseWs (trimWs f) := by
    rcases escapeCsvField_cases f with he | he
    · rw [he] at h
      exact Or.inr h
    · rw [he] at h
      rcases List.mem_cons.mp h with h' | h'
      · exact Or.inl h'
      · rcases List.mem_append.mp h' with h'' | h''
        · rcases mem_doubleQuotes _ _ h'' with h3 | h3
          · exact Or.inl h3
          · exact Or.inr h3
        · exact Or.inl (List.mem_singleton.mp h'')
  rcases hmem with h' | h'
  · subst h'
    exact ⟨by decide, by decide⟩
  · exact ⟨fun he => newline_not_mem_collapseWs _ (he ▸ h'),
      fun he => cr_not_mem_collapseWs _ (he ▸ h')⟩

/-- C4 (counterexample): a field containing a comma, a double quote and a line
feed does not survive a serialize-then-parse round trip, because
`escapeCsvField` collapses the line feed to a space before the quoting
decision. -/
theorem csv_roundtrip_counterexample :
    '\n' ∈ (['x', ',', '"', '\n', 'y'] : Str) ∧
    parseCsvField (escapeCsvField ['x', ',', '"', '\n', 'y']) ≠ ['x', ',', '"', '\n', 'y'] := by
  decide

/-- C4 (amended): serialization first normalizes the field (trims it and
collapses every internal whitespace run to one space); the normalized field
is wrapped in quotes with internal quotes doubled iff it contains a comma or
a double quote (a normalized field can never contain a newline), and
serialize-then-parse under RFC 4180 rules returns the NORMALIZED field.  In
particular fields that are already trimmed and whitespace-collapsed
round-trip exactly. -/
theorem csv_field_quoting_and_roundtrip (f : Str) :
    ((',' ∈ collapseWs (trimWs f) ∨ '"' ∈ collapseWs (trimWs f)) →
      escapeCsvField f = '"' :: doubleQuotes (collapseWs (trimWs f)) ++ ['"']) ∧
    ((',' ∉ collapseWs (trimWs f) ∧ '"' ∉ collapseWs (trimWs f)) →
      escapeCsvField f = collapseWs (trimWs f)) ∧
    parseCsvField (escapeCsvField f) = collapseWs (trimWs f) := by
  by_cases hf : f = []
  · subst hf
    exact ⟨fun h => absurd h (by decide), fun _ => rfl, rfl⟩
  · by_cases hc : (',' ∈ collapseWs (trimWs f) ∨ '"' ∈ collapseWs (trimWs f))
    · refine ⟨fun _ => escapeCsvField_quoted_eq f hf hc, fun h => absurd hc (by tauto), ?_⟩
      rw [escapeCsvField_quoted_eq f hf hc, parseCsvField_quoted, unescapeQuotes_doubleQuotes]
    · refine ⟨fun h => absurd h hc, fun _ => escapeCsvField_unquoted_eq f hf hc, ?_⟩
      rw [escapeCsvField_unquoted_eq f hf hc]
      cases hcl : collapseWs (trimWs f) with
      | nil => rfl
      | cons c rest =>
        have hcq : c ≠ '"' := by
          intro he
          exact hc (Or.inr (hcl ▸ he ▸ List.mem_cons_self _ _))
        exact parseCsvField_not_quote _ (by simpa using hcq)

/-- Witness for C4's amended theorem at a concrete field containing a comma. -/
theorem csv_field_quoting_and_roundtrip_witness :
    escapeCsvField ['a', ',', 'b'] =
      '"' :: doubleQuotes (collapseWs (trimWs ['a', ',', 'b'])) ++ ['"'] :=
  (csv_field_quoting_and_roundtrip ['a', ',', 'b']).1 (Or.inl (by decide))

/-- The `JobData` record (shared TypeScript interface of the content script
and the background script).  Required fields are plain strings; optional
enrichment fields are `Option Str`. -/
structure JobData where
  title : Str
  company : Str
  location : Str
  description : Str
  url : Str
  scrapedAt : Str
  salary : Option Str := none
  jobType : Option Str := none
  experience : Option Str := none
  workplaceType : Option Str := none
  applicantCount : Option Str := none
  companySize : Option Str := none
  linkedinEmployees : Option Str := none
  industry : Option Str := none
  followers : Option Str := none
  hiringInsights : Option Str := none
  benefits : Option Str := none
  skills : Option Str := none
  companyDescription : Option Str := none
  companyCommitments : Option Str := none
  postedDate : Option Str := none
  postedDateISO : Option Str := none
deriving DecidableEq, Repr

/-- The identity-key comparison repeated verbatim in `isDuplicateJob`
(content script, lines 1277-1281) and in the `handleSaveJobs` filter
(background script, lines 56-64): equality of title, company and url. -/
def sameJobKey (existingJob newJob : JobData) : Bool :=
  existingJob.title == newJob.title && existingJob.company == newJob.company &&
    existingJob.url == newJob.url

/-- `isDuplicateJob` (content script, lines 1277-1281): membership of the
candidate's identity key in the in-run record list. -/
def isDuplicateJob (jobs : List JobData) (newJob : JobData) : Bool :=
  jobs.any fun job =>
    job.title == newJob.title && job.company == newJob.company && job.url == newJob.url

/-- The in-run insertion step
`if (jobData && !this.isDuplicateJob(jobData)) this.jobs.push(jobData)` used
by `scrapeJobListings`, `processJobCardDetailed` and `scrapeJobDetail`. -/
def pushIfNewJob (jobs : List JobData) (jobData : JobData) : List JobData :=
  if isDuplicateJob jobs jobData then jobs else jobs ++ [jobData]

/-- The in-run insertion step applied to a possibly-rejected extraction
result (`null` from the extractor inserts nothing). -/
def pushIfNewJobOpt (jobs : List JobData) : Option JobData → List JobData
  | none => jobs
  | some jobData => pushIfNewJob jobs jobData

/-- `handleSaveJobs` (background script, lines 48-81): candidates whose
identity key already occurs in the persisted store are dropped, the remaining
candidates are appended to the store in order.  Note that candidates are
filtered only against the pre-existing store, not against each other. -/
def handleSaveJobs (scrapedJobs newJobs : List JobData) : List JobData :=
  scrapedJobs ++ newJobs.filter fun newJob =>
    ! scrapedJobs.any fun existingJob =>
      existingJob.title == newJob.title && existingJob.company == newJob.company &&
        existingJob.url == newJob.url

/-- A concrete record. -/
def jobA : JobData :=
  { title := ['t'], company := ['c'], location := ['l'], description := [],
    url := ['u'], scrapedAt := [] }

/-- A record with the same identity key as `jobA` but a different location. -/
def jobB : JobData :=
  { title := ['t'], company := ['c'], location := ['m'], description := [],
    url := ['u'], scrapedAt := [] }

/-- C1 (counterexample): a single `SAVE_JOBS` batch that itself contains two
records with equal identity keys adds both of them to an empty store, so the
resulting record set has size 2, not 1: the merge filters candidates only
against the pre-existing store. -/
theorem handleSaveJobs_batch_counterexample :
    sameJobKey jobA jobB = true ∧ jobA ≠ jobB ∧
    handleSaveJobs [] [jobA, jobB] = [jobA, jobB] ∧
    (handleSaveJobs [] [jobA, jobB]).length = 2 := by
  decide

/-- C1 (amended): the identity-key invariant is kept by the in-run insertion
path (inserting a duplicate leaves the set unchanged; two same-key records
inserted in sequence yield a set of size 1; pairwise-distinct keys are
preserved), and by the `SAVE_JOBS` merge for candidates whose key is already
in the persisted store; but a single batch containing two same-key records
adds both, since the merge filters candidates only against the pre-existing
store. -/
theorem dedup_identity_key :
    (∀ jobs j, isDuplicateJob jobs j = true → pushIfNewJob jobs j = jobs) ∧
    (∀ jobs j, isDuplicateJob jobs j = false → pushIfNewJob jobs j = jobs ++ [j]) ∧
    (∀ j1 j2 : JobData, j1.title = j2.title → j1.company = j2.company → j1.url = j2.url →
      pushIfNewJob (pushIfNewJob [] j1) j2 = [j1]) ∧
    (∀ store j, isDuplicateJob store j = true → handleSaveJobs store [j] = store) ∧
    (∀ store j, isDuplicateJob store j = false → handleSaveJobs store [j] = store ++ [j]) ∧
    (∀ jobs j, jobs.Pairwise (fun a b => sameJobKey a b = false) →
      (pushIfNewJob jobs j).Pairwise (fun a b => sameJobKey a b = false)) := by
  have hdup_mem : ∀ (jobs : List JobData) (j : JobData), isDuplicateJob jobs j = false →
      ∀ a ∈ jobs, sameJobKey a j = false := by
    intro jobs j h a ha
    have := List.any_eq_false.mp h a ha
    simpa [sameJobKey] using this
  refine ⟨?_, ?_, ?_, ?_, ?_, ?_⟩
  · intro jobs j h
    simp [pushIfNewJob, h]
  · intro jobs j h
    simp [pushIfNewJob, h]
  · intro j1 j2 h1 h2 h3
    have hfirst : pushIfNewJob [] j1 = [j1] := by
      simp [pushIfNewJob, isDuplicateJob]
    rw [hfirst]
    have hdup : isDuplicateJob [j1] j2 = true := by
      simp [isDuplicateJob, h1, h2, h3]
    simp [pushIfNewJob, hdup]
  · intro store j h
    have : (List.filter (fun newJob => ! store.any fun existingJob =>
        existingJob.title == newJob.title && existingJob.company == newJob.company &&
          existingJob.url == newJob.url) [j]) = [] := by
      simp only [List.filter, isDuplicateJob] at h ⊢
      rw [h]
      rfl
    rw [handleSaveJobs, this, List.append_nil]
  · intro store j h
    have : (List.filter (fun newJob => ! store.any fun existingJob =>
        existingJob.title == newJob.title && existingJob.company == newJob.company &&
          existingJob.url == newJob.url) [j]) = [j] := by
      simp only [List.filter, isDuplicateJob] at h ⊢
      rw [h]
      rfl
    rw [handleSaveJobs, this]
  · intro jobs j hpw
    by_cases h : isDuplicateJob jobs j = true
    · simpa [pushIfNewJob, h] using hpw
    · rw [pushIfNewJob, if_neg h]
      rw [List.pairwise_append]
      refine ⟨hpw, List.pairwise_singleton _ _, ?_⟩
      intro a ha b hb
      rw [List.mem_singleton.mp hb]
      exact hdup_mem jobs j (Bool.not_eq_true _ ▸ eq_false_of_ne_true h) a ha

/-- Witness for C1's amended theorem: sequential insertion of the two
same-key records `jobA`, `jobB` yields a set of size 1. -/
theorem dedup_identity_key_witness :
    pushIfNewJob (pushIfNewJob [] jobA) jobB = [jobA] :=
  dedup_identity_key.2.2.1 jobA jobB rfl rfl rfl

/-- The 21 CSV header names, in the order of `convertJobsToCSV` (background
script, lines 136-158). -/
def csvHeaders : List Str :=
  ["Title", "Company", "Location", "Description", "Salary", "Job Type",
   "Workplace Type", "Experience", "Applicant Count", "Company Size",
   "LinkedIn Employees", "Industry", "Followers", "Hiring Insights", "Skills",
   "Company Description", "Company Commitments", "URL", "Posted Date",
   "Posted Date ISO", "Scraped At"].map String.toList

/-- One data row of `convertJobsToCSV` (background script, lines 162-186):
each field is escaped, optional fields defaulting to the empty string
(`job.salary || ''`). -/
def jobCsvRow (job : JobData) : List Str :=
  [escapeCsvField job.title, escapeCsvField job.company, escapeCsvField job.location,
   escapeCsvField job.description, escapeCsvField (job.salary.getD []),
   escapeCsvField (job.jobType.getD []), escapeCsvField (job.workplaceType.getD []),
   escapeCsvField (job.experience.getD []), escapeCsvField (job.applicantCount.getD []),
   escapeCsvField (job.companySize.getD []), escapeCsvField (job.linkedinEmployees.getD []),
   escapeCsvField (job.industry.getD []), escapeCsvField (job.followers.getD []),
   escapeCsvField (job.hiringInsights.getD []), escapeCsvField (job.skills.getD []),
   escapeCsvField (job.companyDescription.getD []), escapeCsvField (job.companyCommitments.getD []),
   escapeCsvField job.url, escapeCsvField (job.postedDate.getD []),
   escapeCsvField (job.postedDateISO.getD []), escapeCsvField job.scrapedAt]

/-- The rows of the generated CSV: the header row followed by one row per
job. -/
def convertJobsToCSVRows (jobs : List JobData) : List (List Str) :=
  csvHeaders :: jobs.map jobCsvRow

/-- `convertJobsToCSV` (background script, lines 133-190): the placeholder
text on an empty store, otherwise the rows joined with commas and the lines
joined with line feeds. -/
def convertJobsToCSV (jobs : List JobData) : Str :=
  if jobs = [] then "No jobs to export".toList
  else List.intercalate ['\n'] ((convertJobsToCSVRows jobs).map (List.intercalate [',']))

theorem jobCsvRow_mem (job : JobData) (fld : Str) (h : fld ∈ jobCsvRow job) :
    ∃ g, fld = escapeCsvField g := by
  simp only [jobCsvRow, List.mem_cons, List.mem_singleton, List.not_mem_nil, or_false] at h
  rcases h with h | h | h | h | h | h | h | h | h | h | h | h | h | h | h | h | h | h | h | h | h <;>
    exact ⟨_, h⟩

/-- C10: before the quoting decision every field value is trimmed and every
internal whitespace run is collapsed to a single space; a missing
(non-string) or empty value serializes as the empty string; consequently no
field in any row of the generated CSV contains a line feed or a carriage
return. -/
theorem csv_field_normalization :
    escapeCsvFieldOpt none = [] ∧
    escapeCsvField [] = [] ∧
    (∀ f : Str, escapeCsvField f = collapseWs (trimWs f) ∨
      escapeCsvField f = '"' :: doubleQuotes (collapseWs (trimWs f)) ++ ['"']) ∧
    (∀ jobs row fld c, row ∈ convertJobsToCSVRows jobs → fld ∈ row → c ∈ fld →
      c ≠ '\n' ∧ c ≠ '\r') := by
  refine ⟨rfl, rfl, escapeCsvField_cases, ?_⟩
  intro jobs row fld c hrow hfld hc
  rcases List.mem_cons.mp hrow with hrow | hrow
  · subst hrow
    have hhdr : ∀ fld ∈ csvHeaders, ∀ c ∈ fld, c ≠ '\n' ∧ c ≠ '\r' := by decide
    exact hhdr fld hfld c hc
  · rcases List.mem_map.mp hrow with ⟨job, _, hjob⟩
    subst hjob
    obtain ⟨g, hg⟩ := jobCsvRow_mem job fld hfld
    exact escapeCsvField_no_newline g c (hg ▸ hc)

/-- Witness for C10 at a concrete store: the header field of the one-record
CSV contains no line feed. -/
theorem csv_field_normalization_witness :
    ('T' : Char) ≠ '\n' ∧ ('T' : Char) ≠ '\r' :=
  csv_field_normalization.2.2.2 [jobA] csvHeaders "Title".toList 'T'
    (List.mem_cons_self _ _) (by decide) (by decide)

/-- `JOBS_PER_PAGE` (content script, line 33): the host site's fixed page
size. -/
def JOBS_PER_PAGE : Nat := 25

/-- The resolved pagination view. -/
structure PaginationInfo where
  currentPage : Nat
  totalPages : Nat
  totalResults : Nat
  calculatedPages : Nat
deriving DecidableEq, Repr

/-- `getPaginationInfo` (content script, lines 381-427), as a function of the
three parsed page signals: the "N results" count (0 when the element is
absent or unparsable), the `start` offset query parameter (absent when the
URL has none), and the rendered "Page X of Y" indicator (absent when the
element is absent or unparsable).  `Math.ceil(totalResults / 25)` is ceiling
division. -/
def getPaginationInfo (totalResults : Nat) (startParam : Option Nat)
    (pageState : Option (Nat × Nat)) : PaginationInfo :=
  let calculatedPages :=
    if totalResults > 0 then (totalResults + JOBS_PER_PAGE - 1) / JOBS_PER_PAGE else 1
  let currentPageFromUrl :=
    match startParam with
    | some s => s / JOBS_PER_PAGE + 1
    | none => 1
  let displayedTotalPages :=
    match pageState with
    | some (_, y) => y
    | none => calculatedPages
  { currentPage := currentPageFromUrl,
    totalPages := max calculatedPages displayedTotalPages,
    totalResults := totalResults,
    calculatedPages := calculatedPages }

/-- C2: `calculatedPages` is the ceiling of `totalResults / 25` when
`totalResults > 0` (characterized by the two ceiling inequalities) and `1`
otherwise; `currentPage` is `floor(offset / 25) + 1` from the offset
parameter, ignoring the rendered page indicator; `totalPages` is the maximum
of `calculatedPages` and the displayed total; and concretely 137 results give
6 calculated pages and offset 75 gives page 4. -/
theorem pagination_resolution :
    (∀ tr off ps, 0 < tr →
      tr ≤ (getPaginationInfo tr off ps).calculatedPages * JOBS_PER_PAGE ∧
      (getPaginationInfo tr off ps).calculatedPages * JOBS_PER_PAGE < tr + JOBS_PER_PAGE) ∧
    (∀ off ps, (getPaginationInfo 0 off ps).calculatedPages = 1) ∧
    (∀ tr off ps, (getPaginationInfo tr (some off) ps).currentPage = off / JOBS_PER_PAGE + 1) ∧
    (∀ tr ps, (getPaginationInfo tr none ps).currentPage = 1) ∧
    (∀ tr off dc dt, (getPaginationInfo tr off (some (dc, dt))).totalPages =
      max (getPaginationInfo tr off (some (dc, dt))).calculatedPages dt) ∧
    (∀ tr off, (getPaginationInfo tr off none).totalPages =
      (getPaginationInfo tr off none).calculatedPages) ∧
    (getPaginationInfo 137 (some 75) none).calculatedPages = 6 ∧
    (getPaginationInfo 137 (some 75) none).currentPage = 4 := by
  refine ⟨?_, ?_, ?_, ?_, ?_, ?_, by decide, by decide⟩
  · intro tr off ps htr
    simp only [getPaginationInfo, JOBS_PER_PAGE, if_pos htr]
    omega
  · intro off ps
    rfl
  · intro tr off ps
    rfl
  · intro tr ps
    rfl
  · intro tr off dc dt
    rfl
  · intro tr off
    simp [getPaginationInfo]

/-- Witness for C2 at the spec's concrete numbers. -/
theorem pagination_resolution_witness :
    137 ≤ (getPaginationInfo 137 (some 75) none).calculatedPages * JOBS_PER_PAGE ∧
    (getPaginationInfo 137 (some 75) none).calculatedPages * JOBS_PER_PAGE <
      137 + JOBS_PER_PAGE :=
  pagination_resolution.1 137 (some 75) none (by decide)

/-- `MAX_LOW_YIELD_PAGES` (content script, line 34). -/
def MAX_LOW_YIELD_PAGES : Nat := 3

/-- How a `scrapeAllPages` run ends. -/
inductive PageOutcome where
  | completed
  | lowYieldAbort
  | navFailed
deriving DecidableEq, Repr

/-- The page loop of `scrapeAllPages` (content script, lines 310-376), as a
function of the environment: `yieldAt p` is the number of new records page
`p` contributes (`newJobsThisPage`), `navOk p` is whether navigation away
from page `p` succeeds.  Per iteration while `currentPage ≤ totalPages`: a
page yielding fewer than 5 new records increments
`consecutiveLowYieldPages` and the run aborts when the counter reaches
`MAX_LOW_YIELD_PAGES`; a page yielding 5 or more resets the counter to 0;
otherwise the loop navigates to the next page when one remains (a navigation
failure stops the run) and ends normally on the last page.  The embedding
models a run that is never stopped by an external command
(`isScrapingActive` stays true). -/
def scrapePagesLoop (yieldAt : Nat → Nat) (navOk : Nat → Bool) (totalPages page counter : Nat) :
    PageOutcome :=
  if page ≤ totalPages then
    if yieldAt page < 5 then
      if counter + 1 ≥ MAX_LOW_YIELD_PAGES then PageOutcome.lowYieldAbort
      else
        if hlt : page < totalPages then
          if navOk page then scrapePagesLoop yieldAt navOk totalPages (page + 1) (counter + 1)
          else PageOutcome.navFailed
        else PageOutcome.completed
    else
      if hlt : page < totalPages then
        if navOk page then scrapePagesLoop yieldAt navOk totalPages (page + 1) 0
        else PageOutcome.navFailed
      else PageOutcome.completed
  else PageOutcome.completed
termination_by totalPages + 1 - page
decreasing_by all_goals omega

/-- `scrapeAllPages`: the loop started at the resolved current page with the
low-yield counter at 0. -/
def scrapeAllPages (yieldAt : Nat → Nat) (navOk : Nat → Bool) (startPage totalPages : Nat) :
    PageOutcome :=
  scrapePagesLoop yieldAt navOk totalPages startPage 0

theorem scrapePagesLoop_abort_step (yieldAt : Nat → Nat) (navOk : Nat → Bool)
    (totalPages page counter : Nat) (hp : page ≤ totalPages) (hy : yieldAt page < 5)
    (hc : counter + 1 ≥ MAX_LOW_YIELD_PAGES) :
    scrapePagesLoop yieldAt navOk totalPages page counter = PageOutcome.lowYieldAbort := by
  rw [scrapePagesLoop, if_pos hp, if_pos hy, if_pos hc]

theorem scrapePagesLoop_low_step (yieldAt : Nat → Nat) (totalPages page counter : Nat)
    (hp : page ≤ totalPages) (hy : yieldAt page < 5) (hc : ¬counter + 1 ≥ MAX_LOW_YIELD_PAGES)
    (hlt : page < totalPages) :
    scrapePagesLoop yieldAt (fun _ => true) totalPages page counter =
      scrapePagesLoop yieldAt (fun _ => true) totalPages (page + 1) (counter + 1) := by
  rw [scrapePagesLoop, if_pos hp, if_pos hy, if_neg hc, dif_pos hlt, if_pos rfl]

theorem scrapePagesLoop_high_step (yieldAt : Nat → Nat) (totalPages page counter : Nat)
    (hp : page ≤ totalPages) (hy : ¬yieldAt page < 5) (hlt : page < totalPages) :
    scrapePagesLoop yieldAt (fun _ => true) totalPages page counter =
      scrapePagesLoop yieldAt (fun _ => true) totalPages (page + 1) 0 := by
  rw [scrapePagesLoop, if_pos hp, if_neg hy, dif_pos hlt, if_pos rfl]

theorem scrapePagesLoop_last_low (yieldAt : Nat → Nat) (navOk : Nat → Bool)
    (totalPages page counter : Nat) (hp : page ≤ totalPages) (hy : yieldAt page < 5)
    (hc : ¬counter + 1 ≥ MAX_LOW_YIELD_PAGES) (hlt : ¬page < totalPages) :
    scrapePagesLoop yieldAt navOk totalPages page counter = PageOutcome.completed := by
  rw [scrapePagesLoop, if_pos hp, if_pos hy, if_neg hc, dif_neg hlt]

theorem scrapePagesLoop_last_high (yieldAt : Nat → Nat) (navOk : Nat → Bool)
    (totalPages page counter : Nat) (hp : page ≤ totalPages) (hy : ¬yieldAt page < 5)
    (hlt : ¬page < totalPages) :
    scrapePagesLoop yieldAt navOk totalPages page counter = PageOutcome.completed := by
  rw [scrapePagesLoop, if_pos hp, if_neg hy, dif_neg hlt]

theorem scrapePagesLoop_beyond (yieldAt : Nat → Nat) (navOk : Nat → Bool)
    (totalPages page counter : Nat) (hp : ¬page ≤ totalPages) :
    scrapePagesLoop yieldAt navOk totalPages page counter = PageOutcome.completed := by
  rw [scrapePagesLoop, if_neg hp]

theorem scrapePagesLoop_abort_at_window (yieldAt : Nat → Nat) (totalPages i counter : Nat)
    (hw : i + 2 ≤ totalPages) (h0 : yieldAt i < 5) (h1 : yieldAt (i + 1) < 5)
    (h2 : yieldAt (i + 2) < 5) :
    scrapePagesLoop yieldAt (fun _ => true) totalPages i counter = PageOutcome.lowYieldAbort := by
  by_cases hc0 : counter + 1 ≥ MAX_LOW_YIELD_PAGES
  · exact scrapePagesLoop_abort_step _ _ _ _ _ (by omega) h0 hc0
  · rw [scrapePagesLoop_low_step yieldAt totalPages i counter (by omega) h0 hc0 (by omega)]
    by_cases hc1 : counter + 2 ≥ MAX_LOW_YIELD_PAGES
    · exact scrapePagesLoop_abort_step _ _ _ _ _ (by omega) h1 (by omega)
    · rw [scrapePagesLoop_low_step yieldAt totalPages (i + 1) (counter + 1) (by omega) h1
        (by omega) (by omega)]
      exact scrapePagesLoop_abort_step _ _ _ _ _ (by omega) h2
        (by simp only [MAX_LOW_YIELD_PAGES]; omega)

theorem scrapePagesLoop_abort_reach (yieldAt : Nat → Nat) (totalPages i : Nat)
    (hw : i + 2 ≤ totalPages) (h0 : yieldAt i < 5) (h1 : yieldAt (i + 1) < 5)
    (h2 : yieldAt (i + 2) < 5) :
    ∀ k page counter, page + k = i →
      scrapePagesLoop yieldAt (fun _ => true) totalPages page counter =
        PageOutcome.lowYieldAbort := by
  intro k
  induction k with
  | zero =>
    intro page counter hpk
    have hpage : page = i := by omega
    subst hpage
    exact scrapePagesLoop_abort_at_window yieldAt totalPages page counter hw h0 h1 h2
  | succ k ih =>
    intro page counter hpk
    have hp : page ≤ totalPages := by omega
    have hlt : page < totalPages := by omega
    by_cases hy : yieldAt page < 5
    · by_cases hc : counter + 1 ≥ MAX_LOW_YIELD_PAGES
      · exact scrapePagesLoop_abort_step _ _ _ _ _ hp hy hc
      · rw [scrapePagesLoop_low_step yieldAt totalPages page counter hp hy hc hlt]
        exact ih (page + 1) (counter + 1) (by omega)
    · rw [scrapePagesLoop_high_step yieldAt totalPages page counter hp hy hlt]
      exact ih (page + 1) 0 (by omega)

theorem scrapePagesLoop_window_of_abort (yieldAt : Nat → Nat) (totalPages : Nat) :
    ∀ fuel page counter, totalPages + 1 - page ≤ fuel → counter ≤ 2 →
      scrapePagesLoop yieldAt (fun _ => true) totalPages page counter =
        PageOutcome.lowYieldAbort →
      (∃ i, page ≤ i ∧ i + 2 ≤ totalPages ∧ yieldAt i < 5 ∧ yieldAt (i + 1) < 5 ∧
        yieldAt (i + 2) < 5) ∨
      (1 ≤ counter ∧ page + (2 - counter) ≤ totalPages ∧
        ∀ j, j ≤ 2 - counter → yieldAt (page + j) < 5) := by
  intro fuel
  induction fuel with
  | zero =>
    intro page counter hfuel _ habort
    rw [scrapePagesLoop_beyond yieldAt _ totalPages page counter (by omega)] at habort
    exact absurd habort (by decide)
  | succ fuel ih =>
    intro page counter hfuel hcounter habort
    by_cases hp : page ≤ totalPages
    · by_cases hy : yieldAt page < 5
      · by_cases hc : counter + 1 ≥ MAX_LOW_YIELD_PAGES
        · have hcge : 2 ≤ counter := by
            simp only [MAX_LOW_YIELD_PAGES] at hc
            omega
          refine Or.inr ⟨by omega, by omega, ?_⟩
          intro j hj
          have hj0 : j = 0 := by omega
          subst hj0
          simpa using hy
        · by_cases hlt : page < totalPages
          · rw [scrapePagesLoop_low_step yieldAt totalPages page counter hp hy hc hlt] at habort
            have hcle : counter ≤ 1 := by
              simp only [MAX_LOW_YIELD_PAGES] at hc
              omega
            rcases ih (page + 1) (counter + 1) (by omega) (by omega) habort with
              ⟨i, hi1, hi2, hi3, hi4, hi5⟩ | ⟨_, hb2, hb3⟩
            · exact Or.inl ⟨i, by omega, hi2, hi3, hi4, hi5⟩
            · by_cases hc0 : counter = 0
              · subst hc0
                refine Or.inl ⟨page, le_refl page, by omega, hy, ?_, ?_⟩
                · have := hb3 0 (by omega)
                  simpa using this
                · have := hb3 1 (by omega)
                  have heq : page + 1 + 1 = page + 2 := by omega
                  simpa [heq] using this
              · have hc1 : counter = 1 := by omega
                subst hc1
                refine Or.inr ⟨le_refl 1, by omega, ?_⟩
                intro j hj
                rcases Nat.le_one_iff_eq_zero_or_eq_one.mp hj with hj0 | hj1
                · subst hj0
                  simpa using hy
                · subst hj1
                  have := hb3 0 (by omega)
                  simpa using this
          · rw [scrapePagesLoop_last_low yieldAt _ totalPages page counter hp hy hc hlt] at habort
            exact absurd habort (by decide)
      · by_cases hlt : page < totalPages
        · rw [scrapePagesLoop_high_step yieldAt totalPages page counter hp hy hlt] at habort
          rcases ih (page + 1) 0 (by omega) (by omega) habort with
            ⟨i, hi1, hi2, hi3, hi4, hi5⟩ | ⟨hb1, _, _⟩
          · exact Or.inl ⟨i, by omega, hi2, hi3, hi4, hi5⟩
          · exact absurd hb1 (by omega)
        · rw [scrapePagesLoop_last_high yieldAt _ totalPages page counter hp hy hlt] at habort
          exact absurd habort (by decide)
    · rw [scrapePagesLoop_beyond yieldAt _ totalPages page counter hp] at habort
      exact absurd habort (by decide)

/-- C3: with navigation always succeeding and the run never externally
stopped, the page loop transitions to the low-yield abort exactly when some
three consecutive pages within range each yield fewer than 5 new records:
three consecutive low-yield pages always abort the run, and no abort by this
rule happens without them (an intervening page yielding 5 or more resets the
counter, as `scrapePagesLoop` steps it). -/
theorem low_yield_abort_iff (yieldAt : Nat → Nat) (startPage totalPages : Nat) :
    scrapeAllPages yieldAt (fun _ => true) startPage totalPages = PageOutcome.lowYieldAbort ↔
    ∃ i, startPage ≤ i ∧ i + 2 ≤ totalPages ∧
      yieldAt i < 5 ∧ yieldAt (i + 1) < 5 ∧ yieldAt (i + 2) < 5 := by
  constructor
  · intro habort
    rcases scrapePagesLoop_window_of_abort yieldAt totalPages (totalPages + 1 - startPage)
        startPage 0 (le_refl _) (by omega) habort with h | ⟨hb1, _, _⟩
    · exact h
    · exact absurd hb1 (by omega)
  · rintro ⟨i, hi1, hi2, hi3, hi4, hi5⟩
    exact scrapePagesLoop_abort_reach yieldAt totalPages i hi2 hi3 hi4 hi5
      (i - startPage) startPage 0 (by omega)

/-- Witness for C3: a run over 5 pages that all yield nothing aborts, and one
whose third page yields 25 does not. -/
theorem low_yield_abort_iff_witness :
    scrapeAllPages (fun _ => 0) (fun _ => true) 1 5 = PageOutcome.lowYieldAbort ∧
    scrapeAllPages (fun p => if p = 3 then 25 else 0) (fun _ => true) 1 5 ≠
      PageOutcome.lowYieldAbort := by
  constructor
  · exact (low_yield_abort_iff (fun _ => 0) 1 5).mpr
      ⟨1, le_refl 1, by omega, by omega, by omega, by omega⟩
  · intro habort
    rcases (low_yield_abort_iff (fun p => if p = 3 then 25 else 0) 1 5).mp habort with
      ⟨i, hi1, hi2, hi3, hi4, hi5⟩
    have hub : i ≤ 3 := by omega
    interval_cases i
    · simp at hi5
    · simp at hi4
    · simp at hi3

/-- How the lazy-loading scroll loop exits: boundary marker reached,
card count stable for 3 consecutive reads, or the 20-iteration cap. -/
inductive LazyExit where
  | boundary
  | stability
  | cap
deriving DecidableEq, Repr

/-- The scroll loop of `triggerLazyLoadingOfAllJobs` (content script, lines
547-606), as a function of the environment: `counts i` is the card count
observed on iteration `i` (0-indexed) and `bdry i` is whether the pagination
marker sits within 100 px of the container's visible bottom on iteration
`i`.  State: `fuel` is the remaining iteration budget
(`maxScrollAttempts - scrollAttempts`), `i` the number of count reads done so
far, `prev` is `previousJobCount` (initially 0) and `stable` is
`stableCount`.  Each iteration reads the count, stops on the boundary, stops
once 3 consecutive reads are unchanged, otherwise records the count, scrolls
and continues.  The result is the exit cause and the number of count reads
executed.  The embedding models a run that is never externally stopped. -/
def triggerLazyLoadingLoop (counts : Nat → Nat) (bdry : Nat → Bool) :
    Nat → Nat → Nat → Nat → LazyExit × Nat
  | 0, i, _, _ => (LazyExit.cap, i)
  | fuel + 1, i, prev, stable =>
    if bdry i then (LazyExit.boundary, i + 1)
    else
      if counts i = prev then
        if stable + 1 ≥ 3 then (LazyExit.stability, i + 1)
        else triggerLazyLoadingLoop counts bdry fuel (i + 1) (counts i) (stable + 1)
      else triggerLazyLoadingLoop counts bdry fuel (i + 1) (counts i) 0

/-- `triggerLazyLoadingOfAllJobs`: the scroll loop started with
`previousJobCount = 0`, `stableCount = 0`, `scrollAttempts = 0` and
`maxScrollAttempts = 20`. -/
def triggerLazyLoadingOfAllJobs (counts : Nat → Nat) (bdry : Nat → Bool) : LazyExit × Nat :=
  triggerLazyLoadingLoop counts bdry 20 0 0 0

/-- The value `previousJobCount` holds when the count read of iteration `i`
is compared: 0 before the first read, the previous read afterwards. -/
def prevRead (counts : Nat → Nat) (i : Nat) : Nat :=
  if i = 0 then 0 else counts (i - 1)

theorem lazyLoop_stab_exit (counts : Nat → Nat) (bdry : Nat → Bool)
    (fuel i prev stable : Nat) (hb : bdry i = false) (hu : counts i = prev)
    (hs : stable + 1 ≥ 3) :
    triggerLazyLoadingLoop counts bdry (fuel + 1) i prev stable = (LazyExit.stability, i + 1) := by
  rw [triggerLazyLoadingLoop]
  rw [if_neg (by simp [hb]), if_pos hu, if_pos hs]

theorem lazyLoop_unch_step (counts : Nat → Nat) (bdry : Nat → Bool)
    (fuel i prev stable : Nat) (hb : bdry i = false) (hu : counts i = prev)
    (hs : ¬stable + 1 ≥ 3) :
    triggerLazyLoadingLoop counts bdry (fuel + 1) i prev stable =
      triggerLazyLoadingLoop counts bdry fuel (i + 1) (counts i) (stable + 1) := by
  rw [triggerLazyLoadingLoop]
  rw [if_neg (by simp [hb]), if_pos hu, if_neg hs]

theorem lazyLoop_change_step (counts : Nat → Nat) (bdry : Nat → Bool)
    (fuel i prev stable : Nat) (hb : bdry i = false) (hu : ¬counts i = prev) :
    triggerLazyLoadingLoop counts bdry (fuel + 1) i prev stable =
      triggerLazyLoadingLoop counts bdry fuel (i + 1) (counts i) 0 := by
  rw [triggerLazyLoadingLoop]
  rw [if_neg (by simp [hb]), if_neg hu]

theorem lazyLoop_reads_le (counts : Nat → Nat) (bdry : Nat → Bool) :
    ∀ fuel i prev stable, (triggerLazyLoadingLoop counts bdry fuel i prev stable).2 ≤ i + fuel := by
  intro fuel
  induction fuel with
  | zero =>
    intro i prev stable
    simp [triggerLazyLoadingLoop]
  | succ fuel ih =>
    intro i prev stable
    rw [triggerLazyLoadingLoop]
    by_cases hb : bdry i = true
    · rw [if_pos hb]
      show i + 1 ≤ i + (fuel + 1)
      omega
    · rw [if_neg hb]
      by_cases hu : counts i = prev
      · rw [if_pos hu]
        by_cases hs : stable + 1 ≥ 3
        · rw [if_pos hs]
          show i + 1 ≤ i + (fuel + 1)
          omega
        · rw [if_neg hs]
          calc (triggerLazyLoadingLoop counts bdry fuel (i + 1) (counts i) (stable + 1)).2 ≤
              (i + 1) + fuel := ih (i + 1) (counts i) (stable + 1)
            _ = i + (fuel + 1) := by omega
      · rw [if_neg hu]
        calc (triggerLazyLoadingLoop counts bdry fuel (i + 1) (counts i) 0).2 ≤
            (i + 1) + fuel := ih (i + 1) (counts i) 0
          _ = i + (fuel + 1) := by omega

theorem lazyLoop_stab_at_window (counts : Nat → Nat) (fuel i prev stable : Nat)
    (hfuel : 3 ≤ fuel) (h0 : counts i = prev) (h1 : counts (i + 1) = counts i)
    (h2 : counts (i + 2) = counts (i + 1)) :
    (triggerLazyLoadingLoop counts (fun _ => false) fuel i prev stable).1 =
      LazyExit.stability := by
  obtain ⟨f, rfl⟩ : ∃ f, fuel = f + 3 := ⟨fuel - 3, by omega⟩
  by_cases hs0 : stable + 1 ≥ 3
  · rw [lazyLoop_stab_exit counts _ _ i prev stable rfl h0 hs0]
  · rw [lazyLoop_unch_step counts _ _ i prev stable rfl h0 hs0]
    by_cases hs1 : stable + 2 ≥ 3
    · rw [lazyLoop_stab_exit counts _ _ (i + 1) (counts i) (stable + 1) rfl h1 (by omega)]
    · rw [lazyLoop_unch_step counts _ _ (i + 1) (counts i) (stable + 1) rfl h1 (by omega)]
      rw [lazyLoop_stab_exit counts _ _ (i + 2) (counts (i + 1)) (stable + 2) rfl h2 (by omega)]

theorem lazyLoop_stab_reach (counts : Nat → Nat) (j : Nat)
    (h0 : counts j = prevRead counts j) (h1 : counts (j + 1) = counts j)
    (h2 : counts (j + 2) = counts (j + 1)) :
    ∀ k fuel i prev stable, i + k = j → prev = prevRead counts i → j + 3 ≤ i + fuel →
      (triggerLazyLoadingLoop counts (fun _ => false) fuel i prev stable).1 =
        LazyExit.stability := by
  intro k
  induction k with
  | zero =>
    intro fuel i prev stable hik hprev hfuel
    have hij : i = j := by omega
    subst hij
    exact lazyLoop_stab_at_window counts fuel i prev stable (by omega)
      (hprev ▸ h0) h1 h2
  | succ k ih =>
    intro fuel i prev stable hik hprev hfuel
    obtain ⟨f, rfl⟩ : ∃ f, fuel = f + 1 := ⟨fuel - 1, by omega⟩
    by_cases hu : counts i = prev
    · by_cases hs : stable + 1 ≥ 3
      · rw [lazyLoop_stab_exit counts _ f i prev stable rfl hu hs]
      · rw [lazyLoop_unch_step counts _ f i prev stable rfl hu hs]
        exact ih f (i + 1) (counts i) (stable + 1) (by omega)
          (by simp [prevRead]) (by omega)
    · rw [lazyLoop_change_step counts _ f i prev stable rfl hu]
      exact ih f (i + 1) (counts i) 0 (by omega) (by simp [prevRead]) (by omega)

/-- C7 (counterexample): a card count that is zero on every read never
changes after the first read, yet the loop exits after the THIRD read, not
the fourth, because `previousJobCount` is initialized to 0 and the very
first read already counts as unchanged. -/
theorem lazy_load_zero_counterexample :
    triggerLazyLoadingOfAllJobs (fun _ => 0) (fun _ => false) = (LazyExit.stability, 3) ∧
    (LazyExit.stability, 3) ≠ ((LazyExit.stability, 4) : LazyExit × Nat) := by
  exact ⟨rfl, by decide⟩

/-- C7 (amended): the scroll loop executes at most 20 count reads for every
environment; with no boundary marker, three consecutive reads that are
unchanged from their predecessors (within the first 20 reads) make the loop
exit by the stability condition; a count that is constantly some nonzero
value exits by stability on the fourth read, while a constantly-zero count
exits on the third read because the previous-count variable starts at 0. -/
theorem lazy_load_termination :
    (∀ counts bdry, (triggerLazyLoadingOfAllJobs counts bdry).2 ≤ 20) ∧
    (∀ counts j, j + 2 ≤ 19 → counts j = prevRead counts j →
      counts (j + 1) = counts j → counts (j + 2) = counts (j + 1) →
      (triggerLazyLoadingOfAllJobs counts (fun _ => false)).1 = LazyExit.stability) ∧
    (∀ counts c, c ≠ 0 → (∀ i, counts i = c) →
      triggerLazyLoadingOfAllJobs counts (fun _ => false) = (LazyExit.stability, 4)) := by
  refine ⟨?_, ?_, ?_⟩
  · intro counts bdry
    have := lazyLoop_reads_le counts bdry 20 0 0 0
    simpa [triggerLazyLoadingOfAllJobs] using this
  · intro counts j hj h0 h1 h2
    exact lazyLoop_stab_reach counts j h0 h1 h2 j 20 0 0 0 (by omega)
      (by simp [prevRead]) (by omega)
  · intro counts c hc hconst
    rw [triggerLazyLoadingOfAllJobs]
    rw [lazyLoop_change_step counts _ 19 0 0 0 rfl (by rw [hconst 0]; omega)]
    rw [lazyLoop_unch_step counts _ 18 1 (counts 0) 0 rfl (by rw [hconst 1, hconst 0])
      (by omega)]
    rw [lazyLoop_unch_step counts _ 17 2 (counts 1) 1 rfl (by rw [hconst 2, hconst 1])
      (by omega)]
    rw [lazyLoop_stab_exit counts _ 16 3 (counts 2) 2 rfl (by rw [hconst 3, hconst 2])
      (by omega)]

/-- Witness for C7's amended theorem: a constant count of 7 exits by
stability on the fourth read. -/
theorem lazy_load_termination_witness :
    triggerLazyLoadingOfAllJobs (fun _ => 7) (fun _ => false) = (LazyExit.stability, 4) :=
  lazy_load_termination.2.2 (fun _ => 7) 7 (by decide) (fun _ => rfl)

/-- A command-bus message: the `action` string and a possible `jobs`
payload. -/
structure BusMessage where
  action : Str
  jobs : Option (List JobData) := none

/-- A command-bus response object: each field is present only when the
source's response literal mentions it. -/
structure BusResponse where
  success : Option Bool := none
  error : Option Str := none
  jobs : Option (List JobData) := none
  jobCount : Option Nat := none
deriving DecidableEq, Repr

/-- The background `onMessage` listener (background script, lines 208-254),
on its success paths: `SAVE_JOBS` merges the payload (an absent/invalid
payload is rejected by `handleSaveJobs` and the store kept, with
`sendResponse` still reporting success), `GET_ALL_JOBS` returns the store,
`EXPORT_CSV` reports success, `CLEAR_JOBS` empties the store, and the
`default` case responds with only `{error: 'Unknown action'}`, leaving the
store unchanged. -/
def handleBackgroundMessage (msg : BusMessage) (scrapedJobs : List JobData) :
    BusResponse × List JobData :=
  if msg.action = "SAVE_JOBS".toList then
    match msg.jobs with
    | some newJobs =>
      let merged := handleSaveJobs scrapedJobs newJobs
      ({ success := some true, jobCount := some merged.length }, merged)
    | none => ({ success := some true, jobCount := some scrapedJobs.length }, scrapedJobs)
  else if msg.action = "GET_ALL_JOBS".toList then
    ({ jobs := some scrapedJobs }, scrapedJobs)
  else if msg.action = "EXPORT_CSV".toList then
    ({ success := some true }, scrapedJobs)
  else if msg.action = "CLEAR_JOBS".toList then
    ({ success := some true }, [])
  else
    ({ error := some "Unknown action".toList }, scrapedJobs)

/-- The in-page state the content-script listener can touch. -/
structure ContentState where
  jobs : List JobData
  isScrapingActive : Bool
deriving DecidableEq, Repr

/-- The content-script message listener (content script, lines 42-62).  The
effects of `startScraping` and `stopScraping` depend on the page and the
message bus, so they are passed in as abstract state transformers; the
listener's dispatch and responses are modelled exactly: recognized commands
answer `{success: true}` or `{jobs}`, anything else answers
`{success: false, error: 'Unknown action'}` and changes nothing. -/
def handleContentMessage (startScraping stopScraping : ContentState → ContentState)
    (msg : BusMessage) (st : ContentState) : BusResponse × ContentState :=
  if msg.action = "START_SCRAPING".toList then
    ({ success := some true }, startScraping st)
  else if msg.action = "STOP_SCRAPING".toList then
    ({ success := some true }, stopScraping st)
  else if msg.action = "GET_SCRAPED_JOBS".toList then
    ({ jobs := some st.jobs }, st)
  else
    ({ success := some false, error := some "Unknown action".toList }, st)

/-- C8 (counterexample): the background listener's reply to an unknown
action is `{error: 'Unknown action'}` with NO `success` field, so it is not
the claimed `{success:false, error:"Unknown action"}` (the record state is
still left unchanged). -/
theorem background_unknown_counterexample :
    (handleBackgroundMessage { action := "FOO".toList } [jobA]).1.error =
      some "Unknown action".toList ∧
    (handleBackgroundMessage { action := "FOO".toList } [jobA]).1.success = none ∧
    (handleBackgroundMessage { action := "FOO".toList } [jobA]).1.success ≠ some false ∧
    (handleBackgroundMessage { action := "FOO".toList } [jobA]).2 = [jobA] := by
  refine ⟨by decide, by decide, by decide, by decide⟩

/-- C8 (amended): a message whose action is none of the recognized actions
leaves the record state unchanged in both listeners; the content-script
listener replies `{success:false, error:"Unknown action"}`, but the
background listener replies only `{error:"Unknown action"}`, without a
`success` field. -/
theorem unknown_action_handling :
    (∀ (startF stopF : ContentState → ContentState) (msg : BusMessage) (st : ContentState),
      msg.action ≠ "START_SCRAPING".toList → msg.action ≠ "STOP_SCRAPING".toList →
      msg.action ≠ "GET_SCRAPED_JOBS".toList →
      handleContentMessage startF stopF msg st =
        ({ success := some false, error := some "Unknown action".toList }, st)) ∧
    (∀ (msg : BusMessage) (store : List JobData),
      msg.action ≠ "SAVE_JOBS".toList → msg.action ≠ "GET_ALL_JOBS".toList →
      msg.action ≠ "EXPORT_CSV".toList → msg.action ≠ "CLEAR_JOBS".toList →
      handleBackgroundMessage msg store = ({ error := some "Unknown action".toList }, store)) := by
  constructor
  · intro startF stopF msg st h1 h2 h3
    simp only [handleContentMessage, if_neg h1, if_neg h2, if_neg h3]
  · intro msg store h1 h2 h3 h4
    simp only [handleBackgroundMessage, if_neg h1, if_neg h2, if_neg h3, if_neg h4]

/-- Witness for C8's amended theorem at a concrete unknown action. -/
theorem unknown_action_handling_witness :
    handleContentMessage id id { action := "FOO".toList } ⟨[jobA], false⟩ =
      ({ success := some false, error := some "Unknown action".toList }, ⟨[jobA], false⟩) :=
  unknown_action_handling.1 id id { action := "FOO".toList } ⟨[jobA], false⟩
    (by decide) (by decide) (by decide)

/-- Milliseconds per day, as in the ECMAScript date model. -/
def msPerDay : Int := 86400000

/-- Milliseconds per hour. -/
def msPerHour : Int := 3600000

/-- Milliseconds per minute. -/
def msPerMinute : Int := 60000

/-- Milliseconds per second. -/
def msPerSecond : Int := 1000

/-- ECMAScript `Day(t)`: the epoch day containing timestamp `t` (integer
division on `Int` is euclidean and therefore floors for this positive
divisor). -/
def epochDay (t : Int) : Int := t / msPerDay

/-- ECMAScript `TimeWithinDay(t)`. -/
def timeWithinDay (t : Int) : Int := t % msPerDay

/-- ECMAScript `HourFromTime(t)` (the model clock is fixed-offset UTC). -/
def hourFromTime (t : Int) : Int := t / msPerHour % 24

/-- ECMAScript `MinFromTime(t)`. -/
def minFromTime (t : Int) : Int := t / msPerMinute % 60

/-- ECMAScript `SecFromTime(t)`. -/
def secFromTime (t : Int) : Int := t / msPerSecond % 60

/-- ECMAScript `msFromTime(t)`. -/
def msFromTime (t : Int) : Int := t % 1000

/-- Proleptic-Gregorian decomposition of an epoch day into
`(year, month 1-12, day 1-31)`, by the standard civil-from-days algorithm
over 400-year eras; it agrees with ECMAScript's `YearFromTime`,
`MonthFromTime` and `DateFromTime` field decomposition. -/
def civilFromDays (z : Int) : Int × Int × Int :=
  let z' := z + 719468
  let era := z' / 146097
  let doe := z' - era * 146097
  let yoe := (doe - doe / 1460 + doe / 36524 - doe / 146096) / 365
  let y := yoe + era * 400
  let doy := doe - (365 * yoe + yoe / 4 - yoe / 100)
  let mp := (5 * doy + 2) / 153
  let d := doy - (153 * mp + 2) / 5 + 1
  let m := mp + (if mp < 10 then 3 else -9)
  (y + (if m ≤ 2 then 1 else 0), m, d)

/-- ECMAScript `YearFromTime(t)`. -/
def yearFromTime (t : Int) : Int := (civilFromDays (epochDay t)).1

/-- ECMAScript `MonthFromTime(t)`, 0-based as `getMonth` returns it.  The
civil algorithm yields a month in 1-12, so the final `% 12` is the identity;
it makes the 0-11 range available definitionally. -/
def monthFromTime (t : Int) : Int := ((civilFromDays (epochDay t)).2.1 - 1) % 12

/-- ECMAScript `DayFromYear(y)`: the epoch day of January 1 of year `y`. -/
def dayFromYear (y : Int) : Int :=
  365 * (y - 1970) + (y - 1969) / 4 - (y - 1901) / 100 + (y - 1601) / 400

/-- The Gregorian leap-year test, as in ECMAScript `DaysInYear`. -/
def isLeapYear (y : Int) : Bool :=
  (y % 4 == 0 && y % 100 != 0) || y % 400 == 0

/-- Days before 0-based month `m` (in 0-11) within year `y`, as in
ECMAScript `DayWithinYear`'s month offsets. -/
def dayBeforeMonth (y m : Int) : Int :=
  (if m = 0 then 0 else if m = 1 then 31 else if m = 2 then 59 else if m = 3 then 90
   else if m = 4 then 120 else if m = 5 then 151 else if m = 6 then 181 else if m = 7 then 212
   else if m = 8 then 243 else if m = 9 then 273 else if m = 10 then 304 else 334) +
  (if 2 ≤ m ∧ isLeapYear y then 1 else 0)

/-- The number of days of 0-based month `m` of year `y`. -/
def daysInMonthJS (y m : Int) : Int :=
  if m = 1 then (if isLeapYear y then 29 else 28)
  else if m = 3 ∨ m = 5 ∨ m = 8 ∨ m = 10 then 30 else 31

/-- ECMAScript `DateFromTime(t)`: the day of the month, 1-based, expressed
as in the specification via the day within the year minus the days before
the current month. -/
def dateFromTime (t : Int) : Int :=
  epochDay t - (dayFromYear (yearFromTime t) + dayBeforeMonth (yearFromTime t) (monthFromTime t)) + 1

/-- ECMAScript `MakeDay(year, month, date)`: months outside 0-11 carry into
the year, and a `date` outside the month's length overflows into adjacent
months. -/
def makeDay (year month date : Int) : Int :=
  dayFromYear (year + month / 12) + dayBeforeMonth (year + month / 12) (month % 12) + date - 1

/-- ECMAScript `MakeDate(day, time)`. -/
def makeDate (day time : Int) : Int := day * msPerDay + time

/-- `Date.prototype.setHours(h)` (keeping minutes, seconds and
milliseconds), as used by `convertRelativeDateToISO`. -/
def setHoursTime (t h : Int) : Int :=
  makeDate (epochDay t)
    (h * msPerHour + minFromTime t * msPerMinute + secFromTime t * msPerSecond + msFromTime t)

/-- `Date.prototype.setDate(d)` (keeping the time within the day). -/
def setDateTime (t d : Int) : Int :=
  makeDate (makeDay (yearFromTime t) (monthFromTime t) d) (timeWithinDay t)

/-- `Date.prototype.setMonth(m)` (keeping the day of the month and the time
within the day; an out-of-range day overflows via `MakeDay`). -/
def setMonthTime (t m : Int) : Int :=
  makeDate (makeDay (yearFromTime t) m (dateFromTime t)) (timeWithinDay t)

/-- `Date.prototype.setFullYear(y)` (keeping month, day of month and time
within the day). -/
def setFullYearTime (t y : Int) : Int :=
  makeDate (makeDay y (monthFromTime t) (dateFromTime t)) (timeWithinDay t)

theorem monthFromTime_range (t : Int) : 0 ≤ monthFromTime t ∧ monthFromTime t < 12 := by
  unfold monthFromTime
  omega

theorem setHoursTime_sub (t n : Int) : setHoursTime t (hourFromTime t - n) = t - n * msPerHour := by
  unfold setHoursTime makeDate epochDay hourFromTime minFromTime secFromTime msFromTime
  unfold msPerDay msPerHour msPerMinute msPerSecond
  omega

theorem setDateTime_sub (t n : Int) : setDateTime t (dateFromTime t - n) = t - n * msPerDay := by
  obtain ⟨hm0, hm1⟩ := monthFromTime_range t
  have hdiv : monthFromTime t / 12 = 0 := by omega
  have hmod : monthFromTime t % 12 = monthFromTime t := by omega
  unfold setDateTime makeDate makeDay
  rw [hdiv, hmod, add_zero]
  unfold dateFromTime
  unfold epochDay timeWithinDay msPerDay
  omega

theorem setMonthTime_shift (t n : Int) :
    setMonthTime t (monthFromTime t - n) =
      makeDate (makeDay (yearFromTime t) (monthFromTime t - n) (dateFromTime t))
        (timeWithinDay t) := rfl

theorem setFullYearTime_shift (t n : Int) :
    setFullYearTime t (yearFromTime t - n) =
      makeDate
        (dayFromYear (yearFromTime t - n) + dayBeforeMonth (yearFromTime t - n) (monthFromTime t) +
          dateFromTime t - 1)
        (timeWithinDay t) := by
  obtain ⟨hm0, hm1⟩ := monthFromTime_range t
  have hdiv : monthFromTime t / 12 = 0 := by omega
  have hmod : monthFromTime t % 12 = monthFromTime t := by omega
  unfold setFullYearTime makeDay
  rw [hdiv, hmod, add_zero]

/-- The units of the relative-date pattern
`/(\d+)\s*(hour|day|week|month|year)s?\s*ago/`. -/
inductive DateUnit where
  | hour | day | week | month | year
deriving DecidableEq, Repr

/-- The literal word of a unit. -/
def unitWord : DateUnit → Str
  | DateUnit.hour => "hour".toList
  | DateUnit.day => "day".toList
  | DateUnit.week => "week".toList
  | DateUnit.month => "month".toList
  | DateUnit.year => "year".toList

/-- Whether `pat` is a leading segment of `l`. -/
def startsWithStr : Str → Str → Bool
  | [], _ => true
  | _ :: _, [] => false
  | p :: ps, c :: cs => p == c && startsWithStr ps cs

/-- One alternative of `(hour|day|week|month|year)` at the current position
(the five words start with distinct letters, so at most one can apply). -/
def matchUnitAt (l : Str) : Option (DateUnit × Str) :=
  if startsWithStr (unitWord DateUnit.hour) l then some (DateUnit.hour, l.drop 4)
  else if startsWithStr (unitWord DateUnit.day) l then some (DateUnit.day, l.drop 3)
  else if startsWithStr (unitWord DateUnit.week) l then some (DateUnit.week, l.drop 4)
  else if startsWithStr (unitWord DateUnit.month) l then some (DateUnit.month, l.drop 5)
  else if startsWithStr (unitWord DateUnit.year) l then some (DateUnit.year, l.drop 4)
  else none

/-- The pattern tail `\s*ago` at the current position (the regular expression
is unanchored, so anything may follow). -/
def matchAgoTail (l : Str) : Bool :=
  startsWithStr "ago".toList (l.dropWhile isWsChar)

/-- The pattern tail `s?\s*ago`: the optional `s` is tried both consumed and
not, as regex backtracking does. -/
def matchSTail (l : Str) : Bool :=
  (match l with
   | 's' :: rest => matchAgoTail rest
   | _ => false) || matchAgoTail l

/-- `parseInt(-, 10)` on a digit run. -/
def digitsToNat (l : Str) : Nat :=
  l.foldl (fun acc c => acc * 10 + (c.toNat - 48)) 0

/-- The full pattern `(\d+)\s*(hour|day|week|month|year)s?\s*ago` anchored at
the current position: a nonempty digit run, optional whitespace, a unit
word, the optional plural `s`, optional whitespace, and the literal `ago`. -/
def matchRelAt (l : Str) : Option (Nat × DateUnit) :=
  let digits := l.takeWhile Char.isDigit
  if digits = [] then none
  else
    match matchUnitAt ((l.drop digits.length).dropWhile isWsChar) with
    | some (u, rest2) =>
      if matchSTail rest2 then some (digitsToNat digits, u)
      else none
    | none => none

/-- Leftmost unanchored search for the pattern, as `String.prototype.match`
performs it. -/
def findRelMatch : Str → Option (Nat × DateUnit)
  | [] => none
  | c :: rest =>
    match matchRelAt (c :: rest) with
    | some r => some r
    | none => findRelMatch rest

/-- `String.prototype.toLowerCase`. -/
def toLowerStr (l : Str) : Str := l.map Char.toLower

/-- `convertRelativeDateToISO` (content script, lines 1070-1106), at the
timestamp level: a falsy (empty) input yields no date; the lowercased and
trimmed input is searched for the relative pattern; without a match the
result is absent; with a match the capture time `now` is shifted back by the
amount using `setHours`/`setDate`/`setMonth`/`setFullYear` field arithmetic
(weeks shift the day of the month by `7 * amount`). -/
def convertRelativeDateToMs (now : Int) (relativeDate : Str) : Option Int :=
  if relativeDate = [] then none
  else
    match findRelMatch (trimWs (toLowerStr relativeDate)) with
    | none => none
    | some (amount, unit) =>
      some (match unit with
        | DateUnit.hour => setHoursTime now (hourFromTime now - amount)
        | DateUnit.day => setDateTime now (dateFromTime now - amount)
        | DateUnit.week => setDateTime now (dateFromTime now - amount * 7)
        | DateUnit.month => setMonthTime now (monthFromTime now - amount)
        | DateUnit.year => setFullYearTime now (yearFromTime now - amount))

/-- Left-pad with zeroes to a given width. -/
def padLeftZeros (w : Nat) (s : Str) : Str := List.replicate (w - s.length) '0' ++ s

/-- `Date.prototype.toISOString` for timestamps in years 0-9999 (the
operating range of the scraper's clock): `YYYY-MM-DDTHH:MM:SS.mmmZ`. -/
def toISOStringChars (t : Int) : Str :=
  padLeftZeros 4 (Nat.repr (yearFromTime t).toNat).toList ++
  '-' :: padLeftZeros 2 (Nat.repr (monthFromTime t + 1).toNat).toList ++
  '-' :: padLeftZeros 2 (Nat.repr (dateFromTime t).toNat).toList ++
  'T' :: padLeftZeros 2 (Nat.repr (hourFromTime t).toNat).toList ++
  ':' :: padLeftZeros 2 (Nat.repr (minFromTime t).toNat).toList ++
  ':' :: padLeftZeros 2 (Nat.repr (secFromTime t).toNat).toList ++
  '.' :: padLeftZeros 3 (Nat.repr (msFromTime t).toNat).toList ++ ['Z']

/-- `convertRelativeDateToISO` with the string result the source returns. -/
def convertRelativeDateToISO (now : Int) (relativeDate : Str) : Option Str :=
  (convertRelativeDateToMs now relativeDate).map toISOStringChars

/-- The specification reading of "the timestamp exactly `n` calendar months
before `t`": same day of the month and time of day, with the month field
moved back by `n` (borrowing from the year); it exists only when the day of
the month exists in the target month. -/
def specMonthShift (t : Int) (n : Int) : Option Int :=
  if dateFromTime t ≤
      daysInMonthJS (yearFromTime t + (monthFromTime t - n) / 12) ((monthFromTime t - n) % 12) then
    some (makeDate
      (dayFromYear (yearFromTime t + (monthFromTime t - n) / 12) +
        dayBeforeMonth (yearFromTime t + (monthFromTime t - n) / 12) ((monthFromTime t - n) % 12) +
        dateFromTime t - 1)
      (timeWithinDay t))
  else none

/-- The specification reading of "the timestamp exactly `n` calendar years
before `t`": same month, day of month and time of day, year moved back by
`n`; it exists only when the day exists in the target month (February 29). -/
def specYearShift (t : Int) (n : Int) : Option Int :=
  if dateFromTime t ≤ daysInMonthJS (yearFromTime t - n) (monthFromTime t) then
    some (makeDate
      (dayFromYear (yearFromTime t - n) + dayBeforeMonth (yearFromTime t - n) (monthFromTime t) +
        dateFromTime t - 1)
      (timeWithinDay t))
  else none

theorem setMonthTime_spec (t n v : Int) (h : specMonthShift t n = some v) :
    setMonthTime t (monthFromTime t - n) = v := by
  unfold specMonthShift at h
  split at h
  · unfold setMonthTime makeDay
    exact Option.some.inj h
  · exact absurd h (by simp)

theorem setFullYearTime_spec (t n v : Int) (h : specYearShift t n = some v) :
    setFullYearTime t (yearFromTime t - n) = v := by
  unfold specYearShift at h
  split at h
  · rw [setFullYearTime_shift t n]
    exact Option.some.inj h
  · exact absurd h (by simp)

theorem digit_toLower (c : Char) (h : c.isDigit = true) : c.toLower = c := by
  simp only [Char.isDigit, decide_eq_true_eq, Bool.and_eq_true] at h
  obtain ⟨h1, h2⟩ := h
  have h3 : c.toNat ≤ 57 := h2
  simp only [Char.toLower]
  rw [if_neg (by omega)]

theorem digit_not_ws (c : Char) (h : c.isDigit = true) : isWsChar c = false := by
  simp only [Char.isDigit, decide_eq_true_eq, Bool.and_eq_true] at h
  obtain ⟨h1, h2⟩ := h
  have h3 : 48 ≤ c.toNat := h1
  simp only [isWsChar, Bool.or_eq_false_iff, decide_eq_false_iff_not]
  refine ⟨⟨⟨⟨⟨?_, ?_⟩, ?_⟩, ?_⟩, ?_⟩, ?_⟩ <;>
    · intro he
      rw [he] at h3
      exact absurd h3 (by decide)

theorem toLowerStr_digits (ds : Str) (h : ∀ c ∈ ds, c.isDigit = true) : toLowerStr ds = ds := by
  induction ds with
  | nil => rfl
  | cons c rest ih =>
    simp only [toLowerStr, List.map_cons]
    rw [digit_toLower c (h c (List.mem_cons_self _ _))]
    have := ih fun d hd => h d (List.mem_cons_of_mem _ hd)
    simp only [toLowerStr] at this
    rw [this]

theorem trimWs_eq_self (l : Str) (h1 : ∀ c, l.head? = some c → isWsChar c = false)
    (h2 : ∀ c, l.getLast? = some c → isWsChar c = false) : trimWs l = l := by
  unfold trimWs
  have hd : l.dropWhile isWsChar = l := by
    cases l with
    | nil => rfl
    | cons c rest =>
      rw [List.dropWhile_cons, if_neg (by simp [h1 c rfl])]
  rw [hd]
  have hr : l.reverse.dropWhile isWsChar = l.reverse := by
    cases hrev : l.reverse with
    | nil => rfl
    | cons c rest =>
      have hlast : l.getLast? = some c := by
        rw [← List.head?_reverse, hrev]
        rfl
      rw [List.dropWhile_cons, if_neg (by simp [h2 c hlast])]
  rw [hr, List.reverse_reverse]

theorem takeWhile_append_all (p : Char → Bool) (l1 l2 : Str) (h : ∀ c ∈ l1, p c = true) :
    (l1 ++ l2).takeWhile p = l1 ++ l2.takeWhile p := by
  induction l1 with
  | nil => rfl
  | cons c rest ih =>
    rw [List.cons_append, List.takeWhile_cons, if_pos (h c (List.mem_cons_self _ _)),
      List.cons_append, ih fun d hd => h d (List.mem_cons_of_mem _ hd)]

theorem matchRelAt_append_digits (ds suf : Str) (hne : ds ≠ [])
    (hds : ∀ c ∈ ds, c.isDigit = true) (h0 : suf.takeWhile Char.isDigit = []) :
    matchRelAt (ds ++ suf) =
      match matchUnitAt (suf.dropWhile isWsChar) with
      | some (u, rest2) => if matchSTail rest2 then some (digitsToNat ds, u) else none
      | none => none := by
  have htake : (ds ++ suf).takeWhile Char.isDigit = ds := by
    rw [takeWhile_append_all Char.isDigit ds suf hds, h0, List.append_nil]
  simp only [matchRelAt, htake, if_neg hne, List.drop_left]

theorem findRelMatch_append_digits (ds suf : Str) (r : Nat × DateUnit) (hne : ds ≠ [])
    (hds : ∀ c ∈ ds, c.isDigit = true) (h0 : suf.takeWhile Char.isDigit = [])
    (hmr : (match matchUnitAt (suf.dropWhile isWsChar) with
            | some (u, rest2) => if matchSTail rest2 then some (digitsToNat ds, u) else none
            | none => none) = some r) :
    findRelMatch (ds ++ suf) = some r := by
  obtain ⟨d, ds', rfl⟩ : ∃ d ds', ds = d :: ds' := by
    cases ds with
    | nil => exact absurd rfl hne
    | cons d ds' => exact ⟨d, ds', rfl⟩
  rw [List.cons_append, findRelMatch, ← List.cons_append,
    matchRelAt_append_digits (d :: ds') suf hne hds h0, hmr]

theorem convertRelativeDateToMs_parse (now : Int) (ds suf : Str) (r : Nat × DateUnit)
    (hne : ds ≠ []) (hds : ∀ c ∈ ds, c.isDigit = true)
    (hlowsuf : toLowerStr suf = suf)
    (hlast : ∀ c, suf.getLast? = some c → isWsChar c = false)
    (hsufne : suf ≠ [])
    (h0 : suf.takeWhile Char.isDigit = [])
    (hmr : (match matchUnitAt (suf.dropWhile isWsChar) with
            | some (u, rest2) => if matchSTail rest2 then some (digitsToNat ds, u) else none
            | none => none) = some r) :
    convertRelativeDateToMs now (ds ++ suf) =
      some (match r.2 with
        | DateUnit.hour => setHoursTime now (hourFromTime now - r.1)
        | DateUnit.day => setDateTime now (dateFromTime now - r.1)
        | DateUnit.week => setDateTime now (dateFromTime now - r.1 * 7)
        | DateUnit.month => setMonthTime now (monthFromTime now - r.1)
        | DateUnit.year => setFullYearTime now (yearFromTime now - r.1)) := by
  have hfullne : ds ++ suf ≠ [] := fun h => hne (List.append_eq_nil.mp h).1
  have hlow : toLowerStr (ds ++ suf) = ds ++ suf := by
    simp only [toLowerStr, List.map_append]
    rw [show List.map Char.toLower ds = ds from toLowerStr_digits ds hds,
      show List.map Char.toLower suf = suf from hlowsuf]
  have htrim : trimWs (ds ++ suf) = ds ++ suf := by
    apply trimWs_eq_self
    · intro c hc
      obtain ⟨d, ds', rfl⟩ : ∃ d ds', ds = d :: ds' := by
        cases ds with
        | nil => exact absurd rfl hne
        | cons d ds' => exact ⟨d, ds', rfl⟩
      rw [List.cons_append] at hc
      have hcd : c = d := by
        have : some d = some c := hc ▸ rfl
        exact (Option.some.inj this).symm
      rw [hcd]
      exact digit_not_ws d (hds d (List.mem_cons_self _ _))
    · intro c hc
      rw [List.getLast?_append_of_ne_nil ds hsufne] at hc
      exact hlast c hc
  rw [convertRelativeDateToMs, if_neg hfullne, hlow, htrim,
    findRelMatch_append_digits ds suf r hne hds h0 hmr]

/-- C9 (counterexample): captured at `1743422400000` (2025-03-31T12:00Z, a
March 31), the input "1 month ago" converts to `1741003200000`
(2025-03-03T12:00Z): `setMonth` overflows the nonexistent February 31 into
March, so the result lies in the SAME calendar month and year as the capture
time and is only 28 days earlier - it is not a timestamp one month before
the capture time, and indeed no timestamp with the same day-of-month exists
one month earlier. -/
theorem relative_month_counterexample :
    convertRelativeDateToMs 1743422400000 "1 month ago".toList = some 1741003200000 ∧
    specMonthShift 1743422400000 1 = none ∧
    monthFromTime 1741003200000 = monthFromTime 1743422400000 ∧
    yearFromTime 1741003200000 = yearFromTime 1743422400000 ∧
    (1743422400000 - 1741003200000 : Int) = 28 * msPerDay := by
  refine ⟨by decide, by decide, by decide, by decide, by decide⟩

/-- C9 (amended): an empty string converts to absent; "N hours ago",
"N days ago" and "N weeks ago" convert to exactly N hours / N days / 7N days
before the capture time; "N months ago" and "N years ago" convert to the
timestamp with the same day-of-month and time-of-day N calendar months/years
earlier WHENEVER that day exists in the target month (otherwise `setMonth` /
`setFullYear` overflow the day into the following month); and a string with
an unrecognized unit converts to absent without throwing. -/
theorem relative_date_conversion :
    (∀ now : Int, convertRelativeDateToMs now [] = none) ∧
    (∀ (now : Int) (ds : Str), ds ≠ [] → (∀ c ∈ ds, c.isDigit = true) →
      convertRelativeDateToMs now (ds ++ " hours ago".toList) =
        some (now - (digitsToNat ds : Int) * msPerHour)) ∧
    (∀ (now : Int) (ds : Str), ds ≠ [] → (∀ c ∈ ds, c.isDigit = true) →
      convertRelativeDateToMs now (ds ++ " days ago".toList) =
        some (now - (digitsToNat ds : Int) * msPerDay)) ∧
    (∀ (now : Int) (ds : Str), ds ≠ [] → (∀ c ∈ ds, c.isDigit = true) →
      convertRelativeDateToMs now (ds ++ " weeks ago".toList) =
        some (now - (digitsToNat ds : Int) * 7 * msPerDay)) ∧
    (∀ (now v : Int) (ds : Str), ds ≠ [] → (∀ c ∈ ds, c.isDigit = true) →
      specMonthShift now (digitsToNat ds) = some v →
      convertRelativeDateToMs now (ds ++ " months ago".toList) = some v) ∧
    (∀ (now v : Int) (ds : Str), ds ≠ [] → (∀ c ∈ ds, c.isDigit = true) →
      specYearShift now (digitsToNat ds) = some v →
      convertRelativeDateToMs now (ds ++ " years ago".toList) = some v) ∧
    (∀ now : Int, convertRelativeDateToMs now "5 minutes ago".toList = none) := by
  refine ⟨fun now => rfl, ?_, ?_, ?_, ?_, ?_, fun now => rfl⟩
  · intro now ds hne hds
    rw [convertRelativeDateToMs_parse now ds " hours ago".toList (digitsToNat ds, DateUnit.hour)
      hne hds (by decide) (by decide) (by decide) (by decide) rfl]
    rw [show (setHoursTime now (hourFromTime now - (digitsToNat ds : Int)) =
      now - (digitsToNat ds : Int) * msPerHour) from setHoursTime_sub now _]
  · intro now ds hne hds
    rw [convertRelativeDateToMs_parse now ds " days ago".toList (digitsToNat ds, DateUnit.day)
      hne hds (by decide) (by decide) (by decide) (by decide) rfl]
    rw [show (setDateTime now (dateFromTime now - (digitsToNat ds : Int)) =
      now - (digitsToNat ds : Int) * msPerDay) from setDateTime_sub now _]
  · intro now ds hne hds
    rw [convertRelativeDateToMs_parse now ds " weeks ago".toList (digitsToNat ds, DateUnit.week)
      hne hds (by decide) (by decide) (by decide) (by decide) rfl]
    rw [show (setDateTime now (dateFromTime now - (digitsToNat ds : Int) * 7) =
      now - (digitsToNat ds : Int) * 7 * msPerDay) from setDateTime_sub now _]
  · intro now v ds hne hds hspec
    rw [convertRelativeDateToMs_parse now ds " months ago".toList (digitsToNat ds, DateUnit.month)
      hne hds (by decide) (by decide) (by decide) (by decide) rfl]
    rw [show (setMonthTime now (monthFromTime now - (digitsToNat ds : Int)) = v) from
      setMonthTime_spec now _ v hspec]
  · intro now v ds hne hds hspec
    rw [convertRelativeDateToMs_parse now ds " years ago".toList (digitsToNat ds, DateUnit.year)
      hne hds (by decide) (by decide) (by decide) (by decide) rfl]
    rw [show (setFullYearTime now (yearFromTime now - (digitsToNat ds : Int)) = v) from
      setFullYearTime_spec now _ v hspec]

/-- Witness for C9's amended theorem: "3 days ago" captured at
2025-03-31T12:00Z is exactly 3 days before the capture time. -/
theorem relative_date_conversion_witness :
    convertRelativeDateToMs 1743422400000 (['3'] ++ " days ago".toList) =
      some (1743422400000 - (digitsToNat ['3'] : Int) * msPerDay) :=
  relative_date_conversion.2.2.1 1743422400000 ['3'] (by decide) (by decide)

/-- JavaScript `a || b` on strings: `b` when `a` is empty (falsy), else
`a`. -/
def jsOrStr (a b : Str) : Str := if a = [] then b else a

/-- Whether `pat` occurs anywhere in the string, as
`String.prototype.includes`. -/
def containsSubstr (pat : Str) : Str → Bool
  | [] => startsWithStr pat []
  | c :: rest => startsWithStr pat (c :: rest) || containsSubstr pat rest

/-- The digits captured by the first occurrence of the pattern
`\/jobs\/view\/(\d+)` in the string, as the fallback URL match of
`extractJobDataFromCard`. -/
def matchJobsViewId : Str → Option Str
  | [] => none
  | c :: rest =>
    if startsWithStr "/jobs/view/".toList (c :: rest) then
      if ((c :: rest).drop 11).takeWhile Char.isDigit = [] then matchJobsViewId rest
      else some (((c :: rest).drop 11).takeWhile Char.isDigit)
    else matchJobsViewId rest

/-- `title.replace(/with verification$/, '')`: drop the literal only when it
ends the string. -/
def dropEndLiteral (pat l : Str) : Str :=
  if startsWithStr pat.reverse l.reverse then l.take (l.length - pat.length) else l

/-- The text signals `extractJobDataFromCard` (content script, lines
1159-1236) reads from one card: the title element's `aria-label` attribute
and text, company, location and job-insight texts, the detail link's `href`,
the `time[datetime]` attribute, the card's job id, the page URL, and the
capture clock. -/
structure CardEnv where
  titleAria : Option Str := none
  titleText : Option Str := none
  companyText : Option Str := none
  locationText : Option Str := none
  linkHref : Option Str := none
  postedDatetime : Option Str := none
  insightText : Option Str := none
  dataJobId : Option Str := none
  windowHref : Str := []
  now : Int := 0

/-- The cleaned title of a card: aria-label (trimmed) preferred over the
whitespace-collapsed element text, with a trailing "with verification"
marker removed and the result trimmed. -/
def cardCleanTitle (env : CardEnv) : Str :=
  trimWs (dropEndLiteral "with verification".toList
    (jsOrStr (trimWs (env.titleAria.getD []))
      (collapseWs (trimWs (env.titleText.getD [])))))

/-- The URL `extractJobDataFromCard` constructs: the explicit link if
present, else a URL derived from the job id, else one derived from the page
URL's `/jobs/view/<id>` segment, else the page URL itself; a result that
neither mentions `linkedin.com` nor starts with `https://` falls back to the
page URL. -/
def cardUrl (env : CardEnv) : Str :=
  let url0 :=
    match env.linkHref with
    | some href => href
    | none =>
      match env.dataJobId with
      | some id => "https://www.linkedin.com/jobs/view/".toList ++ id ++ "/".toList
      | none =>
        match matchJobsViewId env.windowHref with
        | some id => "https://www.linkedin.com/jobs/view/".toList ++ id ++ "/".toList
        | none => env.windowHref
  if url0 = [] ∨ (containsSubstr "linkedin.com".toList url0 = false ∧
      startsWithStr "https://".toList url0 = false) then env.windowHref
  else url0

/-- `extractJobDataFromCard`: builds the basic record and rejects it
(`null`) when the cleaned title or the company is empty. -/
def extractJobDataFromCard (env : CardEnv) : Option JobData :=
  let company := trimWs (env.companyText.getD [])
  let postedDate := env.postedDatetime.getD []
  if cardCleanTitle env = [] ∨ company = [] then none
  else some
    { title := cardCleanTitle env,
      company := company,
      location := trimWs (env.locationText.getD []),
      description := trimWs (env.insightText.getD []),
      postedDate := some postedDate,
      postedDateISO := convertRelativeDateToISO env.now postedDate,
      url := cardUrl env,
      scrapedAt := toISOStringChars env.now }

/-- The text signals `extractJobDataFromDetailPage` (content script, lines
1238-1275) reads from a standalone detail page. -/
structure DetailPageEnv where
  titleText : Option Str := none
  companyText : Option Str := none
  locationText : Option Str := none
  descriptionText : Option Str := none
  salaryText : Option Str := none
  windowHref : Str := []
  now : Int := 0

/-- `extractJobDataFromDetailPage`: trimmed texts, rejected (`null`) when
title or company is empty. -/
def extractJobDataFromDetailPage (env : DetailPageEnv) : Option JobData :=
  let title := trimWs (env.titleText.getD [])
  let company := trimWs (env.companyText.getD [])
  if title = [] ∨ company = [] then none
  else some
    { title := title,
      company := company,
      location := trimWs (env.locationText.getD []),
      description := trimWs (env.descriptionText.getD []),
      salary := some (trimWs (env.salaryText.getD [])),
      url := env.windowHref,
      scrapedAt := toISOStringChars env.now }

/-- `scrapeJobListings` (content script, lines 223-243): each card is
extracted and the record inserted unless extraction rejected it or its
identity key already occurs. -/
def scrapeJobListings (jobs : List JobData) (cards : List CardEnv) : List JobData :=
  cards.foldl (fun acc card => pushIfNewJobOpt acc (extractJobDataFromCard card)) jobs

/-- C5: card extraction and detail-page extraction return `null` whenever
the cleaned title or the (trimmed) company is empty, every record they do
return has a non-empty title and company, and consequently every record the
listing walk adds to the session set has a non-empty title and company (a
rejected card contributes nothing). -/
theorem record_validation_gate :
    (∀ env, cardCleanTitle env = [] ∨ trimWs (env.companyText.getD []) = [] →
      extractJobDataFromCard env = none) ∧
    (∀ env r, extractJobDataFromCard env = some r → r.title ≠ [] ∧ r.company ≠ []) ∧
    (∀ env, trimWs (env.titleText.getD []) = [] ∨ trimWs (env.companyText.getD []) = [] →
      extractJobDataFromDetailPage env = none) ∧
    (∀ env r, extractJobDataFromDetailPage env = some r → r.title ≠ [] ∧ r.company ≠ []) ∧
    (∀ jobs cards r, r ∈ scrapeJobListings jobs cards →
      r ∈ jobs ∨ (r.title ≠ [] ∧ r.company ≠ [])) := by
  have hcard : ∀ env r, extractJobDataFromCard env = some r → r.title ≠ [] ∧ r.company ≠ [] := by
    intro env r h
    rw [extractJobDataFromCard] at h
    split at h
    · exact absurd h (by simp)
    · rename_i hcond
      rw [not_or] at hcond
      have hr := Option.some.inj h
      rw [← hr]
      exact ⟨hcond.1, hcond.2⟩
  refine ⟨?_, hcard, ?_, ?_, ?_⟩
  · intro env h
    rw [extractJobDataFromCard]
    rw [if_pos h]
  · intro env h
    rw [extractJobDataFromDetailPage]
    rw [if_pos h]
  · intro env r h
    rw [extractJobDataFromDetailPage] at h
    split at h
    · exact absurd h (by simp)
    · rename_i hcond
      rw [not_or] at hcond
      have hr := Option.some.inj h
      rw [← hr]
      exact ⟨hcond.1, hcond.2⟩
  · intro jobs cards
    induction cards generalizing jobs with
    | nil =>
      intro r h
      exact Or.inl h
    | cons card rest ih =>
      intro r h
      have hstep : r ∈ scrapeJobListings (pushIfNewJobOpt jobs (extractJobDataFromCard card)) rest :=
        h
      rcases ih (pushIfNewJobOpt jobs (extractJobDataFromCard card)) r hstep with h' | h'
      · cases hext : extractJobDataFromCard card with
        | none =>
          rw [hext] at h'
          exact Or.inl h'
        | some j =>
          rw [hext] at h'
          simp only [pushIfNewJobOpt, pushIfNewJob] at h'
          split at h'
          · exact Or.inl h'
          · rcases List.mem_append.mp h' with h'' | h''
            · exact Or.inl h''
            · rw [List.mem_singleton.mp h'']
              exact Or.inr (hcard card j hext)
      · exact Or.inr h'

/-- Witness for C5 at a concrete card with a title but no company. -/
theorem record_validation_gate_witness :
    extractJobDataFromCard { titleAria := some "Engineer".toList } = none :=
  record_validation_gate.1 { titleAria := some "Engineer".toList } (Or.inr (by decide))

/-- Replacement of every maximal run of characters satisfying `p` by one
space, as the source's chained `.replace(/X+/g, ' ')` cleanups. -/
def collapseRuns (p : Char → Bool) : Str → Str
  | [] => []
  | [c] => if p c then [' '] else [c]
  | c :: d :: rest =>
    if p c then
      if p d then collapseRuns p (d :: rest)
      else ' ' :: collapseRuns p (d :: rest)
    else c :: collapseRuns p (d :: rest)

/-- `cleanText` (content script, lines 1059-1068): trim, collapse whitespace
runs, collapse remaining newline and tab runs, and cap the length at 2000
characters. -/
def cleanTextJS (text : Str) : Str :=
  (collapseRuns (fun c => c == '\t')
    (collapseRuns (fun c => c == '\n') (collapseWs (trimWs text)))).take 2000

/-- One caption fragment of the tertiary description (content script, lines
755-777): a nonempty trimmed text may set the location (substring markers
"Territory"/"State"/"City", or a comma with neither "ago" nor "applicant"),
the posted date (marker "ago", also deriving the ISO form), and the
applicant count (marker "applicant"); the three tests run in sequence on the
same fragment. -/
def applyTertiarySpan (now : Int) (e : JobData) (raw : Str) : JobData :=
  let text := trimWs raw
  if text = [] then e
  else
    let e1 :=
      if containsSubstr "Territory".toList text || containsSubstr "State".toList text ||
          containsSubstr "City".toList text ||
          (containsSubstr ",".toList text && !containsSubstr "ago".toList text &&
            !containsSubstr "applicant".toList text) then
        { e with location := cleanTextJS text }
      else e
    let e2 :=
      if containsSubstr "ago".toList text then
        { e1 with postedDate := some (cleanTextJS text),
                  postedDateISO := convertRelativeDateToISO now text }
      else e1
    if containsSubstr "applicant".toList text then
      { e2 with applicantCount := some (cleanTextJS text) }
    else e2

/-- One button of the fit-level preferences section (content script, lines
783-799): workplace type and job type by substring markers. -/
def applyPreferenceBtn (e : JobData) (raw : Str) : JobData :=
  let text := trimWs raw
  if text = [] then e
  else
    let e1 :=
      if containsSubstr "On-site".toList text || containsSubstr "Remote".toList text ||
          containsSubstr "Hybrid".toList text then
        { e with workplaceType := some (cleanTextJS text) }
      else e
    if containsSubstr "Full-time".toList text || containsSubstr "Part-time".toList text ||
        containsSubstr "Contract".toList text || containsSubstr "Internship".toList text then
      { e1 with jobType := some (cleanTextJS text) }
    else e1

/-- The keyword list of the skills scan (content script, line 810). -/
def skillsKeywords : List Str :=
  ["Skills:", "Technologies:", "Requirements:", "Technical Skills:"].map String.toList

/-- `String.prototype.split` on one separator character. -/
def splitOnChar (sep : Char) : Str → List Str
  | [] => [[]]
  | c :: rest =>
    if c = sep then [] :: splitOnChar sep rest
    else
      match splitOnChar sep rest with
      | [] => [[c]]
      | s :: ss => (c :: s) :: ss

/-- `String.prototype.indexOf` for a substring. -/
def indexOfSubstr (pat : Str) : Str → Option Nat
  | [] => if startsWithStr pat [] then some 0 else none
  | c :: rest =>
    if startsWithStr pat (c :: rest) then some 0
    else (indexOfSubstr pat rest).map (· + 1)

/-- The skills extraction from the description (content script, lines
809-819): the first matching keyword's position starts a 500-character
window, whose first 3 lines are joined and cleaned. -/
def extractSkills (description : Str) : Option Str :=
  match skillsKeywords.find? (fun kw => containsSubstr kw description) with
  | some kw =>
    match indexOfSubstr kw description with
    | some idx =>
      some (cleanTextJS (List.intercalate [' ']
        ((splitOnChar '\n' ((description.drop idx).take 500)).take 3)))
    | none => none
  | none => none

/-- The tail `\s+employees` of the employee-count lookahead. -/
def wsEmployeesAt (r : Str) : Bool :=
  r.takeWhile isWsChar ≠ [] && startsWithStr "employees".toList (r.drop (r.takeWhile isWsChar).length)

/-- The lookahead `(?=\d+-\d+\s+employees|\d+\s+employees)` at the current
position. -/
def matchEmployeesAt (l : Str) : Bool :=
  if l.takeWhile Char.isDigit = [] then false
  else
    (match l.drop (l.takeWhile Char.isDigit).length with
     | '-' :: r2 =>
       if r2.takeWhile Char.isDigit = [] then false
       else wsEmployeesAt (r2.drop (r2.takeWhile Char.isDigit).length)
     | _ => false) ||
    wsEmployeesAt (l.drop (l.takeWhile Char.isDigit).length)

/-- `infoText.split(/\s+(?=\d+-\d+\s+employees|\d+\s+employees)/)[0]`: the
text before the first whitespace run that is followed by an employee-count
pattern (the whole text when there is none). -/
def industrySplitHead : Str → Str
  | [] => []
  | c :: rest =>
    if isWsChar c ∧ matchEmployeesAt ((c :: rest).dropWhile isWsChar) then []
    else c :: industrySplitHead rest

/-- The commitments list (content script, lines 893-907): each nonempty
trimmed type, joined with its same-index description when that is nonempty
after trimming. -/
def buildCommitments (types descs : List Str) : List Str :=
  (List.range types.length).foldl (fun acc i =>
    match types.get? i with
    | none => acc
    | some ty =>
      if trimWs ty ≠ [] then
        acc ++ [match descs.get? i with
          | some d => if trimWs d ≠ [] then trimWs ty ++ ':' :: ' ' :: trimWs d else trimWs ty
          | none => trimWs ty]
      else acc) []

/-- The premium-insights statistics (content script, lines 919-936): each
stat with both a percentage and a description element whose trimmed texts
are nonempty contributes "percent description". -/
def buildInsights (stats : List (Option Str × Option Str)) : List Str :=
  stats.foldl (fun acc stat =>
    match stat with
    | (some p, some d) =>
      if trimWs p ≠ [] ∧ trimWs d ≠ [] then acc ++ [trimWs p ++ ' ' :: trimWs d] else acc
    | _ => acc) []

/-- The signals the "About the company" section provides (content script,
lines 825-913). -/
structure CompanySectionEnv where
  companyNameText : Option Str := none
  followersText : Option Str := none
  companyInfoText : Option Str := none
  inlineInfoTexts : List Str := []
  descriptionFound : Bool := false
  descriptionInnerText : Option Str := none
  descriptionOuterText : Option Str := none
  altDescriptionText : Option Str := none
  commitmentsFound : Bool := false
  commitmentTypes : List Str := []
  commitmentDescs : List Str := []

/-- The company-section pass of `extractDetailedJobInfo`, applied to the
record built so far. -/
def applyCompanySection (e : JobData) (cs : CompanySectionEnv) : JobData :=
  let e1 : JobData :=
    match cs.companyNameText with
    | some t => if trimWs t ≠ [] then { e with company := cleanTextJS t } else e
    | none => e
  let e2 : JobData :=
    match cs.followersText with
    | some t =>
      if containsSubstr "followers".toList t then
        { e1 with followers := some (cleanTextJS t) }
      else e1
    | none => e1
  let e3 : JobData :=
    match cs.companyInfoText with
    | some t =>
      if trimWs t ≠ [] then
        let ea :=
          if industrySplitHead (trimWs t) ≠ [] ∧ trimWs (industrySplitHead (trimWs t)) ≠ [] then
            { e2 with industry := some (cleanTextJS (industrySplitHead (trimWs t))) }
          else e2
        let eb :=
          match cs.inlineInfoTexts.head? with
          | some sp =>
            if containsSubstr "employees".toList sp then
              { ea with companySize := some (cleanTextJS sp) }
            else ea
          | none => ea
        if cs.inlineInfoTexts.length > 1 then
          match cs.inlineInfoTexts.get? 1 with
          | some sp2 =>
            if trimWs sp2 ≠ [] ∧ containsSubstr "LinkedIn".toList (trimWs sp2) then
              { eb with linkedinEmployees := some (cleanTextJS (trimWs sp2)) }
            else eb
          | none => eb
        else eb
      else e2
    | none => e2
  let e4 : JobData :=
    if cs.descriptionFound then
      match cs.descriptionInnerText with
      | some dt =>
        if trimWs dt ≠ [] then { e3 with companyDescription := some (cleanTextJS dt) }
        else
          match cs.descriptionOuterText with
          | some ot =>
            if trimWs ot ≠ [] then { e3 with companyDescription := some (cleanTextJS ot) }
            else e3
          | none => e3
      | none =>
        match cs.descriptionOuterText with
        | some ot =>
          if trimWs ot ≠ [] then { e3 with companyDescription := some (cleanTextJS ot) }
          else e3
        | none => e3
    else e3
  let e5 : JobData :=
    if e4.companyDescription = none ∨ e4.companyDescription = some ([] : Str) then
      match cs.altDescriptionText with
      | some alt =>
        if trimWs alt ≠ [] then { e4 with companyDescription := some (cleanTextJS alt) } else e4
      | none => e4
    else e4
  if cs.commitmentsFound then
    if (buildCommitments cs.commitmentTypes cs.commitmentDescs).length > 0 then
      let joined :=
        List.intercalate "; ".toList (buildCommitments cs.commitmentTypes cs.commitmentDescs)
      { e5 with companyCommitments := some joined }
    else e5
  else e5

/-- The signals `extractDetailedJobInfo` (content script, lines 722-955)
reads from the active detail panel, in the order the source reads them.
Every read is an `Except`: reading the page can raise an exception (the
source wraps the whole body in `try`/`catch`), and an `Except.error` models
an exception thrown at that read. -/
structure DetailEnv where
  containerFound : Except Unit Bool := Except.ok false
  titleText : Except Unit (Option Str) := Except.ok none
  companyNameText : Except Unit (Option Str) := Except.ok none
  tertiaryTexts : Except Unit (Option (List Str)) := Except.ok none
  preferenceTexts : Except Unit (Option (List Str)) := Except.ok none
  descriptionText : Except Unit (Option Str) := Except.ok none
  companySection : Except Unit (Option CompanySectionEnv) := Except.ok none
  insightStats : Except Unit (Option (List (Option Str × Option Str))) := Except.ok none
  salaryText : Except Unit (Option Str) := Except.ok none
  now : Int := 0

/-- The `try` body of `extractDetailedJobInfo`: a missing details container
returns the basic record; otherwise the enhanced record starts as a copy of
the basic one and each present signal updates its fields in source order;
any read may throw, which aborts the body. -/
def extractDetailedCore (env : DetailEnv) (basicData : JobData) : Except Unit JobData := do
  let found ← env.containerFound
  if !found then
    return basicData
  let titleOpt ← env.titleText
  let e1 : JobData :=
    match titleOpt with
    | some t => if trimWs t ≠ [] then { basicData with title := cleanTextJS t } else basicData
    | none => basicData
  let companyOpt ← env.companyNameText
  let e2 : JobData :=
    match companyOpt with
    | some t => if trimWs t ≠ [] then { e1 with company := cleanTextJS t } else e1
    | none => e1
  let tert ← env.tertiaryTexts
  let e3 : JobData :=
    match tert with
    | some spans => spans.foldl (applyTertiarySpan env.now) e2
    | none => e2
  let prefs ← env.preferenceTexts
  let e4 : JobData :=
    match prefs with
    | some btns => btns.foldl applyPreferenceBtn e3
    | none => e3
  let descOpt ← env.descriptionText
  let e5 : JobData :=
    match descOpt with
    | some t =>
      if trimWs t ≠ [] then
        let e' : JobData :=
          match extractSkills (cleanTextJS t) with
          | some sk => { e4 with skills := some sk }
          | none => e4
        { e' with description := cleanTextJS t }
      else e4
    | none => e4
  let csOpt ← env.companySection
  let e6 : JobData :=
    match csOpt with
    | some cs => applyCompanySection e5 cs
    | none => e5
  let insOpt ← env.insightStats
  let e7 : JobData :=
    match insOpt with
    | some stats =>
      if (buildInsights stats).length > 0 then
        { e6 with hiringInsights := some (List.intercalate "; ".toList (buildInsights stats)) }
      else e6
    | none => e6
  let salOpt ← env.salaryText
  let e8 : JobData :=
    match salOpt with
    | some t => if trimWs t ≠ [] then { e7 with salary := some (cleanTextJS t) } else e7
    | none => e7
  return e8

/-- `extractDetailedJobInfo`: the `try`/`catch` wrapper - an exception
anywhere in the body degrades to the unmodified basic record. -/
def extractDetailedJobInfo (env : DetailEnv) (basicData : JobData) : JobData :=
  match extractDetailedCore env basicData with
  | Except.ok r => r
  | Except.error _ => basicData

/-- The environment of `clickAndExtractJobDetails` (content script, lines
655-683): whether the card has a clickable link, the scroll and click
simulations (each may throw), and the detail panel the click exposes
(`waitForJobDetails` always resolves, so it has no failure mode). -/
structure ClickEnv where
  jobLinkFound : Bool := true
  scrollResult : Except Unit Unit := Except.ok ()
  clickResult : Except Unit Unit := Except.ok ()
  detail : DetailEnv := {}

/-- The `try` body of `clickAndExtractJobDetails`: without a link the basic
record is returned as-is; otherwise the card is scrolled into view and
clicked (either may throw, aborting the body) and the detail extraction runs
(it catches its own exceptions, so it cannot throw). -/
def clickAndExtractCore (env : ClickEnv) (basicData : JobData) : Except Unit JobData :=
  if !env.jobLinkFound then Except.ok basicData
  else
    match env.scrollResult with
    | Except.error e => Except.error e
    | Except.ok _ =>
      match env.clickResult with
      | Except.error e => Except.error e
      | Except.ok _ => Except.ok (extractDetailedJobInfo env.detail basicData)

/-- `clickAndExtractJobDetails`: the `try`/`catch` wrapper - an exception
during scroll or click degrades to the unmodified basic record. -/
def clickAndExtractJobDetails (env : ClickEnv) (basicData : JobData) : JobData :=
  match clickAndExtractCore env basicData with
  | Except.ok r => r
  | Except.error _ => basicData

/-- C6: enrichment is best-effort and never record-destroying: when any
exception is raised in the detail-extraction body, in the scroll, or in the
click, the protocol returns the basic record unchanged (in particular never
`null` and never a partially-updated copy - the field updates happen on a
copy that the `catch` discards); and in every run the result is either the
basic record itself or the full detail-extraction result. -/
theorem enrichment_best_effort :
    (∀ env b, (∃ e, extractDetailedCore env b = Except.error e) →
      extractDetailedJobInfo env b = b) ∧
    (∀ cenv b, cenv.scrollResult = Except.error () ∨ cenv.clickResult = Except.error () ∨
      (∃ e, extractDetailedCore cenv.detail b = Except.error e) →
      clickAndExtractJobDetails cenv b = b) ∧
    (∀ cenv b, clickAndExtractJobDetails cenv b = b ∨
      clickAndExtractJobDetails cenv b = extractDetailedJobInfo cenv.detail b) := by
  have hinner : ∀ env b, (∃ e, extractDetailedCore env b = Except.error e) →
      extractDetailedJobInfo env b = b := by
    intro env b he
    obtain ⟨e, he⟩ := he
    rw [extractDetailedJobInfo, he]
  refine ⟨hinner, ?_, ?_⟩
  · intro cenv b hyp
    rw [clickAndExtractJobDetails, clickAndExtractCore]
    by_cases hl : cenv.jobLinkFound
    · rw [hl]
      cases hs : cenv.scrollResult with
      | error e => rfl
      | ok u =>
        cases hc : cenv.clickResult with
        | error e => rfl
        | ok v =>
          rcases hyp with h | h | h
          · rw [hs] at h
            exact absurd h (by simp)
          · rw [hc] at h
            exact absurd h (by simp)
          · exact hinner cenv.detail b h
    · rw [eq_false_of_ne_true hl]
      rfl
  · intro cenv b
    rw [clickAndExtractJobDetails, clickAndExtractCore]
    by_cases hl : cenv.jobLinkFound
    · rw [hl]
      cases hs : cenv.scrollResult with
      | error e => exact Or.inl rfl
      | ok u =>
        cases hc : cenv.clickResult with
        | error e => exact Or.inl rfl
        | ok v => exact Or.inr rfl
    · rw [eq_false_of_ne_true hl]
      exact Or.inl rfl

/-- A detail environment whose very first read (the container probe) throws. -/
def detailEnvThrow : DetailEnv := { containerFound := Except.error () }

/-- A click environment whose click throws. -/
def clickEnvThrow : ClickEnv := { clickResult := Except.error () }

/-- Witness for C6: a throwing click returns the concrete basic record
`jobA` unchanged, and so does a throwing detail extraction. -/
theorem enrichment_best_effort_witness :
    clickAndExtractJobDetails clickEnvThrow jobA = jobA ∧
    extractDetailedJobInfo detailEnvThrow jobA = jobA :=
  ⟨enrichment_best_effort.2.1 clickEnvThrow jobA (Or.inr (Or.inl rfl)),
   enrichment_best_effort.1 detailEnvThrow jobA ⟨(), rfl⟩⟩
